import Mathlib

/-!
Verification of the request handler of `policy_server.py` (hotel-policy-tool).

The file shallowly embeds the `/process` handler: Python strings become
`String`/`List Char`, `str.strip()` becomes `pyStrip` (Python's Unicode
whitespace set), the markdown fence removal (lines 156-163 of the source)
becomes `stripFences` (returning `Except` because `str.index` raises
`ValueError` when no newline exists), `json.loads` becomes a fuel-based
recursive-descent parser `parseJson` mirroring Python's `json` module
grammar (strict strings, last-wins duplicate object keys, `NaN`/`Infinity`
constants, no leading zeros), and the handler body becomes `process`,
which returns the HTTP outcome together with the list of upstream LLM
calls it performed.

Abstractions, noted for the reader:
  - the upstream call's outcome is an input (`UpstreamResult`): either an
    `anthropic.APIError` with a message, or a reply whose first content
    block has the given text (`message.content[0].text`);
  - request fields model the JSON-string-or-absent cases; a non-string
    `policy_text`/`api_key` value raises before the modelled code
    (Flask-level error) and is outside this embedding;
  - `json.JSONDecodeError` diagnostics are modelled by message kind,
    without the `line/column/char` position suffix Python appends;
  - the handler's debug `print` loop (lines 168-172) can raise on
    non-conforming atoms; `logCheck` models exactly which parsed values
    make it raise, and the `str(e)` text of the raised exception.
-/

namespace PolicyServer

/- Characters written via code points so that the source file stays plain:
   96 is a backtick, 123/125 are braces, 34 is a double quote, 92 a backslash. -/
def btick : Char := Char.ofNat 96
def lbrace : Char := Char.ofNat 123
def rbrace : Char := Char.ofNat 125
def qt : Char := Char.ofNat 34
def bslash : Char := Char.ofNat 92

/- Python's `str.strip()` whitespace set: every code point with the Unicode
   whitespace property (as tested by `Py_UNICODE_ISSPACE`). -/
def pyWs (c : Char) : Bool :=
  c.toNat = 9 || c.toNat = 10 || c.toNat = 11 || c.toNat = 12 || c.toNat = 13 ||
  c.toNat = 28 || c.toNat = 29 || c.toNat = 30 || c.toNat = 31 || c.toNat = 32 ||
  c.toNat = 133 || c.toNat = 160 || c.toNat = 5760 ||
  (8192 ≤ c.toNat && c.toNat ≤ 8202) ||
  c.toNat = 8232 || c.toNat = 8233 || c.toNat = 8239 || c.toNat = 8287 ||
  c.toNat = 12288

/- The whitespace the `json` module skips between tokens: space, tab, LF, CR. -/
def jsonWs (c : Char) : Bool :=
  c = ' ' || c = '\t' || c = '\n' || c = '\r'

def skipWs : List Char → List Char
  | [] => []
  | c :: cs => if jsonWs c then skipWs cs else c :: cs

/- `str.strip()` on a character list: drop Unicode whitespace from both ends. -/
def pyStripL (cs : List Char) : List Char :=
  (((cs.dropWhile pyWs).reverse).dropWhile pyWs).reverse

def pyStrip (s : String) : String := String.mk (pyStripL s.data)

/- `cleaned.startswith(three backticks)` (source line 157). -/
def fenceStartL : List Char → Bool
  | c1 :: c2 :: c3 :: _ => c1 = btick && c2 = btick && c3 = btick
  | _ => false

/- `cleaned.endswith(three backticks)` (source line 161): the last three
   characters are backticks, i.e. the reversed list starts with three. -/
def fenceEndL (cs : List Char) : Bool := fenceStartL cs.reverse

/- `cleaned[cleaned.index(newline) + 1:]` (source line 159-160); `none` models
   the `ValueError: substring not found` that `str.index` raises when the text
   contains no newline. -/
def dropThroughNewline : List Char → Option (List Char)
  | [] => none
  | c :: cs => if c = '\n' then some cs else dropThroughNewline cs

/- `cleaned[:-3]` (source line 162; only reached when the text ends in three
   backticks, so the length is at least 3). -/
def cutLast3 (cs : List Char) : List Char := (cs.reverse.drop 3).reverse

/- Source lines 156-163: strip, remove an opening fence line if present
   (raising if it has no newline), remove a closing fence if present, strip. -/
def stripFencesL (cs : List Char) : Except String (List Char) :=
  let cleaned := pyStripL cs
  match (if fenceStartL cleaned then dropThroughNewline cleaned else some cleaned) with
  | none => .error "substring not found"
  | some c1 =>
    let c2 := if fenceEndL c1 then cutLast3 c1 else c1
    .ok (pyStripL c2)

def stripFences (s : String) : Except String String :=
  match stripFencesL s.data with
  | .error e => .error e
  | .ok cs => .ok (String.mk cs)

/- A parsed JSON value, as produced by `json.loads`. Numbers keep their
   source literal (the claims never compute with them); objects keep their
   key/value pairs in Python dict insertion order with unique keys. -/
inductive Json where
  | null : Json
  | bool (b : Bool) : Json
  | num (lit : String) : Json
  | str (s : String) : Json
  | arr (elems : List Json) : Json
  | obj (entries : List (String × Json)) : Json

/- `d[key] = v` on a Python dict as an ordered association list: replacing an
   existing key keeps its original position, a new key is appended. -/
def insertKV : List (String × Json) → String → Json → List (String × Json)
  | [], k, v => [(k, v)]
  | (k', v') :: rest, k, v =>
    if k' = k then (k', v) :: rest else (k', v') :: insertKV rest k v

/- `d.get(key)` on a Python dict (keys are unique after `insertKV`). -/
def lookupKV : List (String × Json) → String → Option Json
  | [], _ => none
  | (k', v') :: rest, k => if k' = k then some v' else lookupKV rest k

def hexVal (c : Char) : Option Nat :=
  if c.isDigit then some (c.toNat - 48)
  else if 'a' ≤ c && c ≤ 'f' then some (c.toNat - 87)
  else if 'A' ≤ c && c ≤ 'F' then some (c.toNat - 55)
  else none

def parseHex4 : List Char → Option (Nat × List Char)
  | a :: b :: c :: d :: rest =>
    match hexVal a, hexVal b, hexVal c, hexVal d with
    | some x, some y, some z, some w => some (4096 * x + 256 * y + 16 * z + w, rest)
    | _, _, _, _ => none
  | _ => none

/- The body of a JSON string literal, after the opening quote: strict mode
   (raw control characters below 0x20 are rejected), the standard escapes,
   and 4-hex-digit escapes with surrogate-pair combination as in Python's
   `json` scanner. Lean scalar values cannot hold lone surrogates, so those
   fall back through `Char.ofNat` (irrelevant to every claim here). -/
def parseStringBody : Nat → List Char → List Char → Except String (String × List Char)
  | 0, _, _ => .error "Fuel exhausted"
  | fuel + 1, acc, cs =>
    match cs with
    | [] => .error "Unterminated string"
    | c :: rest =>
      if c = qt then .ok (String.mk acc.reverse, rest)
      else if c = bslash then
        match rest with
        | [] => .error "Unterminated string"
        | e :: rest2 =>
          if e = qt then parseStringBody fuel (qt :: acc) rest2
          else if e = bslash then parseStringBody fuel (bslash :: acc) rest2
          else if e = '/' then parseStringBody fuel ('/' :: acc) rest2
          else if e = 'b' then parseStringBody fuel (Char.ofNat 8 :: acc) rest2
          else if e = 'f' then parseStringBody fuel (Char.ofNat 12 :: acc) rest2
          else if e = 'n' then parseStringBody fuel ('\n' :: acc) rest2
          else if e = 'r' then parseStringBody fuel ('\r' :: acc) rest2
          else if e = 't' then parseStringBody fuel ('\t' :: acc) rest2
          else if e = 'u' then
            match parseHex4 rest2 with
            | none => .error "Invalid \x5cuXXXX escape"
            | some (h, rest3) =>
              if 55296 ≤ h && h ≤ 56319 then
                match rest3 with
                | b1 :: u1 :: tail =>
                  if b1 = bslash ∧ u1 = 'u' then
                    match parseHex4 tail with
                    | some (l, rest4) =>
                      if 56320 ≤ l && l ≤ 57343 then
                        parseStringBody fuel
                          (Char.ofNat (65536 + (h - 55296) * 1024 + (l - 56320)) :: acc) rest4
                      else parseStringBody fuel (Char.ofNat h :: acc) rest3
                    | none => parseStringBody fuel (Char.ofNat h :: acc) rest3
                  else parseStringBody fuel (Char.ofNat h :: acc) rest3
                | _ => parseStringBody fuel (Char.ofNat h :: acc) rest3
              else parseStringBody fuel (Char.ofNat h :: acc) rest3
          else .error "Invalid \x5cescape"
      else if c.toNat < 32 then .error "Invalid control character"
      else parseStringBody fuel (c :: acc) rest

/- The fractional part `\.\d+` of the number regex, or nothing (with no
   characters consumed) when it does not match at this position. -/
def parseFracPart (cs : List Char) : List Char × List Char :=
  match cs with
  | c :: rest =>
    if c = '.' then
      let ds := rest.takeWhile Char.isDigit
      if ds = [] then ([], cs) else ('.' :: ds, rest.dropWhile Char.isDigit)
    else ([], cs)
  | [] => ([], cs)

/- The exponent part `[eE][-+]?\d+` of the number regex, or nothing. -/
def parseExpPart (cs : List Char) : List Char × List Char :=
  match cs with
  | c :: rest =>
    if c = 'e' || c = 'E' then
      match rest with
      | s :: r1 =>
        if s = '+' || s = '-' then
          let ds := r1.takeWhile Char.isDigit
          if ds = [] then ([], cs) else (c :: s :: ds, r1.dropWhile Char.isDigit)
        else
          let ds := rest.takeWhile Char.isDigit
          if ds = [] then ([], cs) else (c :: ds, rest.dropWhile Char.isDigit)
      | [] => ([], cs)
    else ([], cs)
  | [] => ([], cs)

/- The digits of the number regex after its first (possibly signed) digit:
   a leading zero may not be followed by more digits, otherwise the integer
   part is maximal, then the optional fraction and exponent groups. -/
def parseNumTail (sgn : List Char) (c : Char) (r : List Char) :
    Except String (String × List Char) :=
  if c = '0' then
    match parseFracPart r with
    | (f, r2) =>
      match parseExpPart r2 with
      | (e, r3) => .ok (String.mk (sgn ++ c :: (f ++ e)), r3)
  else if c.isDigit then
    match parseFracPart (r.dropWhile Char.isDigit) with
    | (f, r2) =>
      match parseExpPart r2 with
      | (e, r3) =>
        .ok (String.mk (sgn ++ c :: (r.takeWhile Char.isDigit ++ f ++ e)), r3)
  else .error "Expecting value"

/- Python json's NUMBER_RE: the integer part `-?(?:0|[1-9]*)` with digits
   after a nonzero lead, then the optional fraction and exponent groups. -/
def parseNumber (cs : List Char) : Except String (String × List Char) :=
  match cs with
  | [] => .error "Expecting value"
  | c :: cs1 =>
    if c = '-' then
      match cs1 with
      | [] => .error "Expecting value"
      | c2 :: r => parseNumTail ['-'] c2 r
    else parseNumTail [] c cs1

/- The `json.loads` value grammar, fuel-based. The scanner expects the next
   value to start at the head of the input (callers skip whitespace first);
   diagnostics carry Python's message kinds. `NaN`, `Infinity` and
   `-Infinity` are accepted as in the default `json.loads`. -/
mutual

def parseValue : Nat → List Char → Except String (Json × List Char)
  | 0, _ => .error "Fuel exhausted"
  | fuel + 1, cs =>
    match cs with
    | [] => .error "Expecting value"
    | c :: rest =>
      if c = qt then
        match parseStringBody (rest.length + 1) [] rest with
        | .error e => .error e
        | .ok (s, r1) => .ok (.str s, r1)
      else if c = lbrace then
        match skipWs rest with
        | [] => .error "Expecting property name enclosed in double quotes"
        | d :: r2 =>
          if d = rbrace then .ok (.obj [], r2)
          else
            match parseObjPairs fuel [] (d :: r2) with
            | .error e => .error e
            | .ok (entries, r3) => .ok (.obj entries, r3)
      else if c = '[' then
        match skipWs rest with
        | [] => .error "Expecting value"
        | d :: r2 =>
          if d = ']' then .ok (.arr [], r2)
          else
            match parseArrItems fuel [] (d :: r2) with
            | .error e => .error e
            | .ok (elems, r3) => .ok (.arr elems, r3)
      else if c = 'n' then
        if rest.take 3 = ['u', 'l', 'l'] then .ok (.null, rest.drop 3)
        else .error "Expecting value"
      else if c = 't' then
        if rest.take 3 = ['r', 'u', 'e'] then .ok (.bool true, rest.drop 3)
        else .error "Expecting value"
      else if c = 'f' then
        if rest.take 4 = ['a', 'l', 's', 'e'] then .ok (.bool false, rest.drop 4)
        else .error "Expecting value"
      else if c = 'N' then
        if rest.take 2 = ['a', 'N'] then .ok (.num "NaN", rest.drop 2)
        else .error "Expecting value"
      else if c = 'I' then
        if rest.take 7 = ['n', 'f', 'i', 'n', 'i', 't', 'y'] then
          .ok (.num "Infinity", rest.drop 7)
        else .error "Expecting value"
      else if c = '-' then
        if rest.take 8 = ['I', 'n', 'f', 'i', 'n', 'i', 't', 'y'] then
          .ok (.num "-Infinity", rest.drop 8)
        else
          match parseNumber cs with
          | .error e => .error e
          | .ok (lit, r1) => .ok (.num lit, r1)
      else if c.isDigit then
        match parseNumber cs with
        | .error e => .error e
        | .ok (lit, r1) => .ok (.num lit, r1)
      else .error "Expecting value"

/- Inside `[ ... ]` after the first position (a value is required here). -/
def parseArrItems : Nat → List Json → List Char → Except String (List Json × List Char)
  | 0, _, _ => .error "Fuel exhausted"
  | fuel + 1, acc, cs =>
    match parseValue fuel cs with
    | .error e => .error e
    | .ok (v, r1) =>
      match skipWs r1 with
      | [] => .error "Expecting \x27,\x27 delimiter"
      | d :: r2 =>
        if d = ']' then .ok (acc ++ [v], r2)
        else if d = ',' then parseArrItems fuel (acc ++ [v]) (skipWs r2)
        else .error "Expecting \x27,\x27 delimiter"

/- Inside braces after the first position (a quoted key is required here). -/
def parseObjPairs : Nat → List (String × Json) → List Char →
    Except String (List (String × Json) × List Char)
  | 0, _, _ => .error "Fuel exhausted"
  | fuel + 1, acc, cs =>
    match cs with
    | [] => .error "Expecting property name enclosed in double quotes"
    | c :: rest =>
      if c = qt then
        match parseStringBody (rest.length + 1) [] rest with
        | .error e => .error e
        | .ok (key, r1) =>
          match skipWs r1 with
          | [] => .error "Expecting \x27:\x27 delimiter"
          | d :: r2 =>
            if d = ':' then
              match parseValue fuel (skipWs r2) with
              | .error e => .error e
              | .ok (v, r3) =>
                match skipWs r3 with
                | [] => .error "Expecting \x27,\x27 delimiter"
                | e2 :: r4 =>
                  if e2 = rbrace then .ok (insertKV acc key v, r4)
                  else if e2 = ',' then parseObjPairs fuel (insertKV acc key v) (skipWs r4)
                  else .error "Expecting \x27,\x27 delimiter"
            else .error "Expecting \x27:\x27 delimiter"
      else .error "Expecting property name enclosed in double quotes"

end

/- `json.loads`: skip leading whitespace, parse one value, require only
   whitespace to remain. -/
def parseJson (s : String) : Except String Json :=
  match parseValue (2 * s.data.length + 8) (skipWs s.data) with
  | .error e => .error e
  | .ok (v, rest) =>
    match skipWs rest with
    | [] => .ok v
    | _ => .error "Extra data"

/- The fixed system prompt (source lines 17-119), reproduced verbatim; braces,
   quotes and apostrophes are written as escapes to keep the file plain. -/
def SYSTEM_PROMPT : String := "You are a hotel policy extraction system for an Indian travel booking platform.

You will receive raw hotel policy text from a supplier. Your job is to:
1. Break the text into individual, distinct policy statements (atoms)
2. Classify each atom into a category and sensitivity level
3. Rewrite each atom for clarity while preserving the original detail and meaning

---

IMPORTANT: The supplier\x27s title field (e.g. \x22Guest Profile\x22, \x22Other Rules\x22, \x22Common\x22) is ONLY for traceability. Do NOT use it to determine the category or sensitivity. Classify each policy atom SOLELY based on what the policy text says.

A policy titled \x22Other Rules\x22 can contain critical couple restrictions.
A policy titled \x22Food & Beverages\x22 can contain mandatory charges.
A policy titled \x22Check-in Check-out Policy\x22 can contain ID denial clauses.
Always read the actual text. The title means nothing for classification.

---

TAXONOMY:

CRITICAL — policies that cause check-in denial, surprise financial charges, or trip-breaking restrictions:

- couple_restriction: Unmarried or unrelated couples not allowed, or allowed only with conditions (both IDs required, marriage certificate needed, etc.)
- local_id_restriction: Local IDs not accepted for check-in, same-city residents not allowed, right of admission reserved for local residents
- mandatory_charges: Compulsory charges NOT included in the booking price — gala dinner supplements, mandatory meal charges, seasonal tariff differences payable at hotel. Must involve a specific charge or explicit \x22not included in booking\x22 language. Optional fees (breakfast, rollaway bed) are NOT mandatory_charges.
- age_restriction: Minimum age requirement for check-in (e.g. 18+, 21+), bachelors or stag entry not allowed, adults-only property
- nationality_restriction: Only Indian nationals allowed, foreign nationals need specific documents, certain nationalities restricted
- facility_closure: Swimming pool, gym, spa, restaurant, or elevator closed, under renovation, or not operational. Must be a current/active closure, not a general amenity description.

STANDARD — informational policies, manageable at check-in, not trip-breaking:

- guest_profile: Couple/unmarried friendly status, male stags allowed or not, adults-only or children allowed, bachelor group policy. Use this for informational guest-type statements that do NOT involve check-in denial. If the text says check-in will be DENIED, use the relevant critical category instead.
- id_documentation: List of accepted ID proof types (Aadhaar, passport, driving license, etc.). Note: if the text also says check-in will be DENIED without ID and no refund given, classify that denial clause as critical under the most relevant critical category, and the ID list itself as standard under id_documentation.
- checkin_checkout: Check-in and check-out timings, early check-in or late check-out fees and availability, front desk hours, key collection process
- child_policy: Children stay free below what age, children chargeable above what age and at what rate, complimentary food for children, infant policy, cribs/cots availability
- extra_bed: Extra bed or mattress availability, charges per night, rollaway bed policy, maximum occupancy rules
- food_beverage: Outside food allowed or not, non-veg food allowed or not, alcohol consumption rules, food delivery (Swiggy/Zomato) allowed or not, in-room dining, complimentary breakfast/meals, restaurant info
- smoking_policy: Smoking rules — where allowed, where restricted, designated smoking areas, penalties for smoking in non-smoking rooms
- pet_policy: Pets allowed or not, service animals policy, pet fees, pet deposit, pets on property
- security_deposit: Refundable or non-refundable security deposit amount, payment mode for deposit, refund timeline, damage deposit
- payment_methods: Accepted payment modes — cards, UPI, cash, mobile payments
- cancellation_refund: Cancellation deadline (free cancellation before X date/time), cancellation penalties, no-show charges and policy, modification fees, refund terms and timeline
- outside_visitors: Visitor entry policy, visitor hours, charges for day visitors, whether non-guests are allowed in rooms or common areas
- damage_policy: Damage charges, liability for property damage, penalties for broken items, linen damage fees
- long_stay: Policies for stays of 30+ nights, monthly stay rules, extended stay conditions, long-term booking discounts
- party_event_policy: Party/event rules, noise restrictions, quiet hours, music cutoff time, DJ policy, celebration rules
- accessibility: Wheelchair accessibility, elevator availability, disabled-friendly facilities, accessible rooms. Note: if the property is NOT accessible or has no elevator, this is still standard unless it represents a closure/breakdown (which would be facility_closure).
- safety_information: Fire safety, emergency exits, CCTV, security guards, COVID protocols, sanitization measures, health requirements, safe deposit box
- property_rules: Curfew timings, parking, general amenity info, any other property rules not covered by the categories above

OTHERS — use this when the policy text does not fit cleanly into any of the above categories, or when you are not confident about the correct classification. Always standard sensitivity.

---

EXTRACTION RULES:

1. One input blob may contain MULTIPLE distinct policy statements separated by |||, newlines, numbered lists, or just run-on sentences. Extract EACH as a separate atom.

2. Display text: Write concise, scannable policy statements. Keep critical specifics (amounts, ages, ID types) but cut filler words and repetitive phrasing. Aim for 1 short sentence per atom, 2 sentences max only when a consequence must be stated. Do not repeat the same information in different words within one atom.
   - BAD (too long): \x22All guests above 18 years of age must carry a valid photo identity card and address proof at check-in. Failure to provide these documents can result in the hotel denying check-in with no refund.\x22
   - GOOD: \x22Valid photo ID and address proof mandatory at check-in. Check-in denied with no refund if not provided.\x22
   - BAD (too vague): \x22Extra charges may apply\x22
   - GOOD: \x22Extra bed at INR 500/night, payable at property\x22
   - BAD (multiple atoms): \x22Couples not allowed no refund ID required 18+ only\x22
   - GOOD: Split into separate atoms, one per distinct policy

3. If a policy statement contains BOTH a rule AND a consequence (e.g. \x22Valid ID is mandatory. Failure to produce ID will result in check-in denial with no refund\x22), extract them as a SINGLE atom — do not split the rule from its consequence. The consequence is what determines the sensitivity.

4. Skip generic boilerplate that adds no specific information to the user:
   - \x22Special requests are subject to availability\x22
   - \x22Additional charges may apply\x22
   - \x22Please contact the property for details\x22
   These are noise. Do not extract them.

5. Skip empty, meaningless, or placeholder text (e.g. \x22.\x22, \x22..\x22, blank text). Return an empty array.

6. For policies with specific monetary amounts, ALWAYS preserve the exact amount clearly in the display text. Format prices prominently — e.g. \x22INR 3,500 per person\x22, \x22INR 500/night\x22, \x22Rs. 2,000 refundable deposit\x22. Never drop, round, or obscure any price. If a price range is mentioned, preserve both ends. If currency is not specified, assume INR. Prices are the most important detail users look for — make them impossible to miss.

7. If you are unsure about the category, use \x22others\x22 with sensitivity \x22standard\x22. Do not force a classification you are not confident about.

8. Confidence scoring:
   - 0.90-1.00: Text clearly and unambiguously matches the category. No interpretation needed.
   - 0.75-0.89: Text strongly implies the category but has some ambiguity in wording.
   - 0.60-0.74: Text is vague or could belong to multiple categories. You made a judgment call.
   - Below 0.60: You are guessing. Use \x22others\x22 category instead.

---

OUTPUT FORMAT:

Return ONLY a JSON object with a \x22policies\x22 key containing an array. Each item:
\x7b
  \x22policies\x22: [
    \x7b
      \x22display_text\x22: \x22Clean, readable policy statement preserving all specific details\x22,
      \x22category\x22: \x22one of the taxonomy slugs above\x22,
      \x22sensitivity\x22: \x22critical\x22 or \x22standard\x22,
      \x22confidence\x22: 0.0 to 1.0
    \x7d
  ]
\x7d

If the input text is empty or contains no extractable policies, return: \x7b\x22policies\x22: []\x7d"

/- The JSON body of a POST to the process endpoint: each field is the given
   string when present, `none` when absent or null (other falsy JSON values
   behave like `none` through the `or` defaulting on source lines 131-132;
   truthy non-string values raise before the modelled code and are outside
   this embedding). -/
structure Req where
  policy_text : Option String
  api_key : Option String

/- The process environment: `ANTHROPIC_API_KEY` when set and non-empty. -/
structure Env where
  anthropicApiKey : Option String

/- The arguments of one `client.messages.create(...)` upstream call, plus the
   credential the `anthropic.Anthropic` client was constructed with. -/
structure CallArgs where
  model : String
  maxTokens : Nat
  temperature : Rat
  system : String
  userMessage : String
  apiKey : String

/- The outcome the upstream call would have: an `anthropic.APIError` with the
   given string form, or a reply whose first content block has this text. -/
inductive UpstreamResult where
  | apiError (msg : String)
  | reply (text : String)

/- The HTTP response of the handler: `jsonify(policies=...)` with status 200,
   or `jsonify(error=...)` with status 400 or 500. -/
inductive Response where
  | success (policies : Json)
  | clientError (msg : String)
  | serverError (msg : String)

def isArr : Json → Bool
  | .arr _ => true
  | _ => false

def isSuccess : Response → Bool
  | .success _ => true
  | _ => false

/- The Python type name of a parsed JSON value, as it appears in TypeError
   and AttributeError messages; a JSON number is an `int` when its literal
   has no fraction, exponent or constant letters. -/
def isIntLit (lit : String) : Bool :=
  lit.data.all (fun c => c.isDigit || c = '-')

def pyTypeName : Json → String
  | .null => "NoneType"
  | .bool _ => "bool"
  | .num lit => if isIntLit lit then "int" else "float"
  | .str _ => "str"
  | .arr _ => "list"
  | .obj _ => "dict"

/- One iteration of the debug print loop (source lines 169-171) on atom `p`:
   `p.get(...)` requires a dict, and `p.get('display_text', ..)[:70]` requires
   the value to be sliceable (a string or a list); the error is the `str(e)`
   of the exception Python raises otherwise. -/
def atomCheck (p : Json) : Except String Unit :=
  match p with
  | .obj kvs =>
    match lookupKV kvs "display_text" with
    | none => .ok ()
    | some (.str _) => .ok ()
    | some (.arr _) => .ok ()
    | some (.obj _) => .error "unhashable type: \x27slice\x27"
    | some v => .error ("\x27" ++ pyTypeName v ++ "\x27 object is not subscriptable")
  | v => .error ("\x27" ++ pyTypeName v ++ "\x27 object has no attribute \x27get\x27")

def loopCheck : List Json → Except String Unit
  | [] => .ok ()
  | p :: ps =>
    match atomCheck p with
    | .error e => .error e
    | .ok _ => loopCheck ps

/- The whole logging block (source lines 168-172) on the extracted `policies`
   value: `len(policies)` requires a sized value, then the loop runs over its
   elements (characters of a string, keys of a dict, items of a list). -/
def logCheck : Json → Except String Unit
  | .arr xs => loopCheck xs
  | .str s =>
    if s = "" then .ok ()
    else .error "\x27str\x27 object has no attribute \x27get\x27"
  | .obj [] => .ok ()
  | .obj (_ :: _) => .error "\x27str\x27 object has no attribute \x27get\x27"
  | v => .error ("object of type \x27" ++ pyTypeName v ++ "\x27 has no len()")

/- Source line 166: `parsed.get('policies', []) if isinstance(parsed, dict) else parsed`. -/
def extractPolicies : Json → Json
  | .obj kvs => (lookupKV kvs "policies").getD (.arr [])
  | v => v

/- Source line 132: the request key, trimmed, when that is non-empty;
   otherwise the environment variable (empty string when unset). -/
def resolveKey (req : Req) (env : Env) : String :=
  let k := pyStrip (req.api_key.getD "")
  if k = "" then env.anthropicApiKey.getD "" else k

/- The arguments of the one `client.messages.create` call (source lines
   143-150): fixed model, max_tokens 4096, temperature 0.2, the system
   prompt, and the single user message wrapping the trimmed input. -/
def mkCall (req : Req) (env : Env) : CallArgs :=
  ⟨"claude-sonnet-4-20250514", 4096, 0.2, SYSTEM_PROMPT,
   "Policy text:\n\x22\x22\x22" ++ pyStrip (req.policy_text.getD "") ++ "\x22\x22\x22",
   resolveKey req env⟩

/- The `/process` handler body (source lines 128-184). The second component
   lists the upstream calls made (empty or a singleton: the handler never
   loops or retries). Exceptions map to the source `except` clauses in order:
   `anthropic.APIError` to the 500 with the upstream text, a JSON parse
   failure to the 500 with the parser diagnostic, and everything else (the
   `str.index` ValueError from fence stripping, and TypeError/AttributeError
   from the print loop) to the catch-all 500 with `str(e)`. -/
def process (req : Req) (env : Env) (up : UpstreamResult) : Response × List CallArgs :=
  if resolveKey req env = "" then
    (.clientError "No Anthropic API key provided.", [])
  else if pyStrip (req.policy_text.getD "") = "" then
    (.clientError "No policy text provided.", [])
  else
    match up with
    | .apiError msg => (.serverError ("Claude API error: " ++ msg), [mkCall req env])
    | .reply text =>
      match stripFences text with
      | .error e => (.serverError e, [mkCall req env])
      | .ok cleaned =>
        match parseJson cleaned with
        | .error diag =>
          (.serverError ("Failed to parse Claude response as JSON: " ++ diag), [mkCall req env])
        | .ok parsed =>
          match logCheck (extractPolicies parsed) with
          | .error e => (.serverError e, [mkCall req env])
          | .ok _ => (.success (extractPolicies parsed), [mkCall req env])

/-! ### Helper lemmas about the handler -/

theorem process_missing_key (req : Req) (env : Env) (up : UpstreamResult)
    (h : resolveKey req env = "") :
    process req env up = (.clientError "No Anthropic API key provided.", []) := by
  unfold process
  rw [if_pos h]

theorem process_blank_text (req : Req) (env : Env) (up : UpstreamResult)
    (hkey : resolveKey req env ≠ "") (htext : pyStrip (req.policy_text.getD "") = "") :
    process req env up = (.clientError "No policy text provided.", []) := by
  unfold process
  rw [if_neg hkey, if_pos htext]

theorem process_calls_one (req : Req) (env : Env) (up : UpstreamResult)
    (hkey : resolveKey req env ≠ "") (htext : pyStrip (req.policy_text.getD "") ≠ "") :
    (process req env up).2 = [mkCall req env] := by
  unfold process
  rw [if_neg hkey, if_neg htext]
  cases up with
  | apiError m => rfl
  | reply t =>
    cases hst : stripFences t with
    | error e => simp only [hst]
    | ok cleaned =>
      cases hp : parseJson cleaned with
      | error d => simp only [hst, hp]
      | ok parsed =>
        cases hl : logCheck (extractPolicies parsed) with
        | error e => simp only [hst, hp, hl]
        | ok u => simp only [hst, hp, hl]

theorem process_reply_parsed (req : Req) (env : Env) (t cleaned : String) (parsed : Json)
    (hkey : resolveKey req env ≠ "") (htext : pyStrip (req.policy_text.getD "") ≠ "")
    (hstrip : stripFences t = .ok cleaned) (hparse : parseJson cleaned = .ok parsed) :
    (process req env (.reply t)).1 =
      (match logCheck (extractPolicies parsed) with
       | .ok _ => Response.success (extractPolicies parsed)
       | .error e => Response.serverError e) := by
  unfold process
  rw [if_neg hkey, if_neg htext]
  simp only [hstrip, hparse]
  cases hl : logCheck (extractPolicies parsed) with
  | error e => rfl
  | ok u => rfl

/-! ### C2 -/

/-- C2 counterexample: a request whose policy_text is blank after trimming,
with a valid API key supplied, does not get the success response with an
empty policies array; the handler answers with the 400-style client error
for missing policy text (and makes no upstream call). -/
theorem c2_counterexample :
    process ⟨some "   ", some "key"⟩ ⟨none⟩ (.reply "\x7b\x22policies\x22: []\x7d") =
      (.clientError "No policy text provided.", []) ∧
    isSuccess (process ⟨some "   ", some "key"⟩ ⟨none⟩
      (.reply "\x7b\x22policies\x22: []\x7d")).1 = false := by
  constructor
  · rfl
  · rfl

/-- C2 (amended): for a request whose policy_text is blank (empty after
trimming) while a valid API key is available, the handler returns the
EmptyInput client error response with message "No policy text provided.",
not a success response. -/
theorem c2_blank_input_rejected (req : Req) (env : Env) (up : UpstreamResult)
    (hkey : resolveKey req env ≠ "")
    (htext : pyStrip (req.policy_text.getD "") = "") :
    (process req env up).1 = .clientError "No policy text provided." := by
  rw [process_blank_text req env up hkey htext]

theorem c2_witness :
    resolveKey ⟨some " ", some "key"⟩ ⟨none⟩ ≠ "" ∧
    pyStrip ((⟨some " ", some "key"⟩ : Req).policy_text.getD "") = "" ∧
    (process ⟨some " ", some "key"⟩ ⟨none⟩ (.apiError "boom")).1 =
      .clientError "No policy text provided." :=
  ⟨by decide, by decide,
   c2_blank_input_rejected ⟨some " ", some "key"⟩ ⟨none⟩ (.apiError "boom")
     (by decide) (by decide)⟩

/-! ### C3 -/

/-- C3: for every request whose policy_text is empty or whitespace-only
(while an API key is available from the request or the environment), the
handler fails with the EmptyInput client error ("No policy text provided.",
HTTP 400) and makes no upstream LLM call. -/
theorem c3_empty_input_no_call (req : Req) (env : Env) (up : UpstreamResult)
    (hkey : resolveKey req env ≠ "")
    (htext : pyStrip (req.policy_text.getD "") = "") :
    process req env up = (.clientError "No policy text provided.", []) :=
  process_blank_text req env up hkey htext

theorem c3_witness :
    resolveKey ⟨some "\t \n", none⟩ ⟨some "envkey"⟩ ≠ "" ∧
    pyStrip ((⟨some "\t \n", none⟩ : Req).policy_text.getD "") = "" ∧
    process ⟨some "\t \n", none⟩ ⟨some "envkey"⟩ (.apiError "boom") =
      (.clientError "No policy text provided.", []) :=
  ⟨by decide, by decide,
   c3_empty_input_no_call ⟨some "\t \n", none⟩ ⟨some "envkey"⟩ (.apiError "boom")
     (by decide) (by decide)⟩

/-! ### C4 -/

/-- C4: the API key used for the upstream call is the request's api_key after
trimming when that is non-empty, otherwise the ANTHROPIC_API_KEY environment
value; and when neither source yields a non-empty key the handler fails with
the MissingApiKey client error ("No Anthropic API key provided.", HTTP 400)
and makes no upstream LLM call. -/
theorem c4_key_resolution (req : Req) (env : Env) (up : UpstreamResult) :
    (pyStrip (req.api_key.getD "") ≠ "" →
      resolveKey req env = pyStrip (req.api_key.getD "")) ∧
    (pyStrip (req.api_key.getD "") = "" →
      resolveKey req env = env.anthropicApiKey.getD "") ∧
    (resolveKey req env = "" →
      process req env up = (.clientError "No Anthropic API key provided.", [])) ∧
    ((process req env up).2.map CallArgs.apiKey).all
      (fun k => k == resolveKey req env) = true := by
  refine ⟨?_, ?_, ?_, ?_⟩
  · intro h
    unfold resolveKey
    rw [if_neg h]
  · intro h
    unfold resolveKey
    rw [if_pos h]
  · intro h
    exact process_missing_key req env up h
  · by_cases hkey : resolveKey req env = ""
    · rw [process_missing_key req env up hkey]
      rfl
    · by_cases htext : pyStrip (req.policy_text.getD "") = ""
      · rw [process_blank_text req env up hkey htext]
        rfl
      · rw [process_calls_one req env up hkey htext]
        simp [mkCall]

theorem c4_witness :
    resolveKey ⟨some "p", some " reqkey "⟩ ⟨some "envkey"⟩ = "reqkey" ∧
    resolveKey ⟨some "p", some "  "⟩ ⟨some "envkey"⟩ = "envkey" ∧
    process ⟨some "p", some " "⟩ ⟨none⟩ (.apiError "boom") =
      (.clientError "No Anthropic API key provided.", []) ∧
    ((process ⟨some "p", some " reqkey "⟩ ⟨some "envkey"⟩ (.apiError "boom")).2.map
      CallArgs.apiKey).all (fun k => k == resolveKey ⟨some "p", some " reqkey "⟩
        ⟨some "envkey"⟩) = true :=
  ⟨((c4_key_resolution ⟨some "p", some " reqkey "⟩ ⟨some "envkey"⟩
      (.apiError "boom")).1 (by decide)).trans (by decide),
   ((c4_key_resolution ⟨some "p", some "  "⟩ ⟨some "envkey"⟩
      (.apiError "boom")).2.1 (by decide)).trans (by decide),
   (c4_key_resolution ⟨some "p", some " "⟩ ⟨none⟩ (.apiError "boom")).2.2.1 (by decide),
   (c4_key_resolution ⟨some "p", some " reqkey "⟩ ⟨some "envkey"⟩ (.apiError "boom")).2.2.2⟩

/-! ### C8 -/

/-- C8: for every request that passes validation, the handler makes exactly
one upstream call, whose arguments are the fixed model identifier
claude-sonnet-4-20250514, max_tokens 4096, temperature 0.2, the fixed system
prompt constant, and a single user message wrapping the trimmed policy_text
in the literal Policy text delimiter. -/
theorem c8_call_arguments (req : Req) (env : Env) (up : UpstreamResult)
    (hkey : resolveKey req env ≠ "")
    (htext : pyStrip (req.policy_text.getD "") ≠ "") :
    (process req env up).2 =
      [⟨"claude-sonnet-4-20250514", 4096, 0.2, SYSTEM_PROMPT,
        "Policy text:\n\x22\x22\x22" ++ pyStrip (req.policy_text.getD "") ++ "\x22\x22\x22",
        resolveKey req env⟩] :=
  process_calls_one req env up hkey htext

theorem c8_witness :
    resolveKey ⟨some " p ", some "key"⟩ ⟨none⟩ ≠ "" ∧
    pyStrip ((⟨some " p ", some "key"⟩ : Req).policy_text.getD "") ≠ "" ∧
    (process ⟨some " p ", some "key"⟩ ⟨none⟩ (.apiError "boom")).2 =
      [⟨"claude-sonnet-4-20250514", 4096, 0.2, SYSTEM_PROMPT,
        "Policy text:\n\x22\x22\x22p\x22\x22\x22", "key"⟩] :=
  ⟨by decide, by decide,
   (c8_call_arguments ⟨some " p ", some "key"⟩ ⟨none⟩ (.apiError "boom")
     (by decide) (by decide)).trans (by rfl)⟩

/-! ### C10 -/

theorem dropThroughNewline_none (cs : List Char) (h : '\n' ∉ cs) :
    dropThroughNewline cs = none := by
  induction cs with
  | nil => rfl
  | cons c rest ih =>
    unfold dropThroughNewline
    rw [if_neg (by simp at h; exact fun hc => h.1 hc.symm)]
    exact ih (by simp at h; exact h.2)

theorem stripFences_no_newline (t : String)
    (hf : fenceStartL (pyStripL t.data) = true) (hn : '\n' ∉ pyStripL t.data) :
    stripFences t = .error "substring not found" := by
  unfold stripFences stripFencesL
  simp only [hf, if_true, dropThroughNewline_none (pyStripL t.data) hn]

/-- C10: when a model reply's trimmed text starts with three backticks but
contains no newline anywhere, the substring search for the first newline
fails (a ValueError in the source), and the handler returns the catch-all
internal 500 error carrying that exception's string form
("substring not found"), not the ResponseParseError-shaped message; the one
upstream call has already been made. -/
theorem c10_fence_no_newline (req : Req) (env : Env) (t : String)
    (hkey : resolveKey req env ≠ "")
    (htext : pyStrip (req.policy_text.getD "") ≠ "")
    (hf : fenceStartL (pyStripL t.data) = true) (hn : '\n' ∉ pyStripL t.data) :
    (process req env (.reply t)).1 = .serverError "substring not found" ∧
    (process req env (.reply t)).2 = [mkCall req env] := by
  constructor
  · unfold process
    rw [if_neg hkey, if_neg htext]
    simp only [stripFences_no_newline t hf hn]
  · exact process_calls_one req env (.reply t) hkey htext

theorem c10_witness :
    resolveKey ⟨some "p", some "key"⟩ ⟨none⟩ ≠ "" ∧
    pyStrip ((⟨some "p", some "key"⟩ : Req).policy_text.getD "") ≠ "" ∧
    fenceStartL (pyStripL ("\x60\x60\x60x" : String).data) = true ∧
    '\n' ∉ pyStripL ("\x60\x60\x60x" : String).data ∧
    (process ⟨some "p", some "key"⟩ ⟨none⟩ (.reply "\x60\x60\x60x")).1 =
      .serverError "substring not found" :=
  ⟨by decide, by decide, by decide, by decide,
   (c10_fence_no_newline ⟨some "p", some "key"⟩ ⟨none⟩ "\x60\x60\x60x"
     (by decide) (by decide) (by decide) (by decide)).1⟩

/-! ### C5 -/

/-- C5: for every model reply whose text, after fence-stripping, is not a
single valid JSON value, the handler returns the ResponseParseError-shaped
500 error whose message carries the JSON parser's diagnostic, and exactly
one upstream call was made (no retry, no repair attempt). -/
theorem c5_parse_error_single_call (req : Req) (env : Env) (t cleaned diag : String)
    (hkey : resolveKey req env ≠ "")
    (htext : pyStrip (req.policy_text.getD "") ≠ "")
    (hstrip : stripFences t = .ok cleaned)
    (hparse : parseJson cleaned = .error diag) :
    (process req env (.reply t)).1 =
      .serverError ("Failed to parse Claude response as JSON: " ++ diag) ∧
    (process req env (.reply t)).2 = [mkCall req env] := by
  constructor
  · unfold process
    rw [if_neg hkey, if_neg htext]
    simp only [hstrip, hparse]
  · exact process_calls_one req env (.reply t) hkey htext

theorem c5_witness :
    resolveKey ⟨some "p", some "key"⟩ ⟨none⟩ ≠ "" ∧
    pyStrip ((⟨some "p", some "key"⟩ : Req).policy_text.getD "") ≠ "" ∧
    stripFences "not json" = .ok "not json" ∧
    parseJson "not json" = .error "Expecting value" ∧
    (process ⟨some "p", some "key"⟩ ⟨none⟩ (.reply "not json")).1 =
      .serverError ("Failed to parse Claude response as JSON: " ++ "Expecting value") ∧
    (process ⟨some "p", some "key"⟩ ⟨none⟩ (.reply "not json")).2.length = 1 :=
  ⟨by decide, by decide, by rfl, by rfl,
   (c5_parse_error_single_call ⟨some "p", some "key"⟩ ⟨none⟩ "not json" "not json"
     "Expecting value" (by decide) (by decide) (by rfl) (by rfl)).1,
   by rw [(c5_parse_error_single_call ⟨some "p", some "key"⟩ ⟨none⟩ "not json" "not json"
     "Expecting value" (by decide) (by decide) (by rfl) (by rfl)).2]; rfl⟩

/-! ### C6 -/

/-- C6: for every model reply that parses (after fence-stripping) to a JSON
value, the extracted policies list is: the value of the object's "policies"
key (defaulting to the empty array when absent) when the parsed value is an
object, and the parsed array itself when it is an array; the handler's
response is then determined by that extracted value (success with exactly
it when the logging pass accepts it). -/
theorem c6_parsed_value_dispatch (req : Req) (env : Env) (t cleaned : String) (parsed : Json)
    (hkey : resolveKey req env ≠ "")
    (htext : pyStrip (req.policy_text.getD "") ≠ "")
    (hstrip : stripFences t = .ok cleaned)
    (hparse : parseJson cleaned = .ok parsed) :
    ((process req env (.reply t)).1 =
      (match logCheck (extractPolicies parsed) with
       | .ok _ => Response.success (extractPolicies parsed)
       | .error e => Response.serverError e)) ∧
    (∀ kvs, parsed = .obj kvs →
      extractPolicies parsed = (lookupKV kvs "policies").getD (.arr [])) ∧
    (∀ xs, parsed = .arr xs → extractPolicies parsed = .arr xs) := by
  refine ⟨process_reply_parsed req env t cleaned parsed hkey htext hstrip hparse, ?_, ?_⟩
  · intro kvs hk
    rw [hk]
    rfl
  · intro xs hx
    rw [hx]
    rfl

theorem c6_witness :
    resolveKey ⟨some "p", some "key"⟩ ⟨none⟩ ≠ "" ∧
    pyStrip ((⟨some "p", some "key"⟩ : Req).policy_text.getD "") ≠ "" ∧
    stripFences "[]" = .ok "[]" ∧
    parseJson "[]" = .ok (.arr []) ∧
    (process ⟨some "p", some "key"⟩ ⟨none⟩ (.reply "[]")).1 = .success (.arr []) ∧
    extractPolicies (.arr []) = .arr [] :=
  ⟨by decide, by decide, by rfl, by rfl,
   ((c6_parsed_value_dispatch ⟨some "p", some "key"⟩ ⟨none⟩ "[]" "[]" (.arr [])
     (by decide) (by decide) (by rfl) (by rfl)).1).trans (by rfl),
   (c6_parsed_value_dispatch ⟨some "p", some "key"⟩ ⟨none⟩ "[]" "[]" (.arr [])
     (by decide) (by decide) (by rfl) (by rfl)).2.2 [] rfl⟩

/-! ### C9 -/

/-- C9 counterexample: the model reply parses to an object whose "policies"
key holds an array, yet the handler does not return that array in a success
response: the debug print loop raises on the non-dict atom 5 and the
handler answers with the catch-all 500 carrying the AttributeError text. -/
theorem c9_counterexample :
    parseJson "\x7b\x22policies\x22:[5]\x7d" =
      .ok (.obj [("policies", .arr [.num "5"])]) ∧
    (process ⟨some "p", some "key"⟩ ⟨none⟩
      (.reply "\x7b\x22policies\x22:[5]\x7d")).1 =
      .serverError "\x27int\x27 object has no attribute \x27get\x27" ∧
    isSuccess (process ⟨some "p", some "key"⟩ ⟨none⟩
      (.reply "\x7b\x22policies\x22:[5]\x7d")).1 = false := by
  refine ⟨by rfl, by rfl, by rfl⟩

/-- C9 (amended): for every model reply that parses to an object containing
a "policies" array, the handler returns exactly that array unmodified in
the success response, with no schema validation of atom fields, provided
every element survives the debug logging pass (each element is an object
whose display_text value, when present, is a string or a list); atoms with
absent fields or other malformed fields of those shapes pass through
as-is, while an element of another shape makes the logging pass raise and
the handler answer with the catch-all 500 error instead. -/
theorem c9_passthrough (req : Req) (env : Env) (t cleaned : String)
    (kvs : List (String × Json)) (xs : List Json)
    (hkey : resolveKey req env ≠ "")
    (htext : pyStrip (req.policy_text.getD "") ≠ "")
    (hstrip : stripFences t = .ok cleaned)
    (hparse : parseJson cleaned = .ok (.obj kvs))
    (hpol : lookupKV kvs "policies" = some (.arr xs))
    (hloop : loopCheck xs = .ok ()) :
    (process req env (.reply t)).1 = .success (.arr xs) := by
  have hex : extractPolicies (.obj kvs) = .arr xs := by
    show (lookupKV kvs "policies").getD (.arr []) = .arr xs
    rw [hpol]
    rfl
  have h := process_reply_parsed req env t cleaned (.obj kvs) hkey htext hstrip hparse
  rw [hex] at h
  rw [h]
  have hl : logCheck (.arr xs) = .ok () := hloop
  rw [hl]

theorem c9_witness :
    resolveKey ⟨some "p", some "key"⟩ ⟨none⟩ ≠ "" ∧
    pyStrip ((⟨some "p", some "key"⟩ : Req).policy_text.getD "") ≠ "" ∧
    stripFences "\x7b\x22policies\x22:[\x7b\x22foo\x22:1\x7d]\x7d" =
      .ok "\x7b\x22policies\x22:[\x7b\x22foo\x22:1\x7d]\x7d" ∧
    parseJson "\x7b\x22policies\x22:[\x7b\x22foo\x22:1\x7d]\x7d" =
      .ok (.obj [("policies", .arr [.obj [("foo", .num "1")]])]) ∧
    (process ⟨some "p", some "key"⟩ ⟨none⟩
      (.reply "\x7b\x22policies\x22:[\x7b\x22foo\x22:1\x7d]\x7d")).1 =
      .success (.arr [.obj [("foo", .num "1")]]) :=
  ⟨by decide, by decide, by rfl, by rfl,
   c9_passthrough ⟨some "p", some "key"⟩ ⟨none⟩
     "\x7b\x22policies\x22:[\x7b\x22foo\x22:1\x7d]\x7d"
     "\x7b\x22policies\x22:[\x7b\x22foo\x22:1\x7d]\x7d"
     [("policies", .arr [.obj [("foo", .num "1")]])] [.obj [("foo", .num "1")]]
     (by decide) (by decide) (by rfl) (by rfl) (by rfl) (by rfl)⟩

/-! ### C1 -/

/-- C1 counterexample: a model reply consisting of the bare JSON string ""
is parsed, extracted unchanged (the parsed value is not a dict), survives
the logging loop (an empty string has length 0), and is returned in a
success response whose policies value is the empty string, not an array. -/
theorem c1_counterexample :
    (process ⟨some "p", some "key"⟩ ⟨none⟩ (.reply "\x22\x22")).1 =
      .success (.str "") ∧
    isArr (.str "") = false := by
  refine ⟨by rfl, by rfl⟩

/-- C1 (amended): for every request and every model reply, the handler's
response is a client error object (error string, HTTP 400), a server error
object (error string, HTTP 500), or a success object whose policies value
is the value extracted from the successfully parsed reply — an array for
conforming replies, but possibly a non-array value (such as a string or an
empty object) echoed from a non-conforming reply. -/
theorem c1_response_shape (req : Req) (env : Env) (up : UpstreamResult) :
    (∃ m, (process req env up).1 = .clientError m) ∨
    (∃ m, (process req env up).1 = .serverError m) ∨
    (∃ t cleaned parsed, up = .reply t ∧ stripFences t = .ok cleaned ∧
      parseJson cleaned = .ok parsed ∧
      logCheck (extractPolicies parsed) = .ok () ∧
      (process req env up).1 = .success (extractPolicies parsed)) := by
  by_cases hkey : resolveKey req env = ""
  · left
    exact ⟨_, by rw [process_missing_key req env up hkey]⟩
  · by_cases htext : pyStrip (req.policy_text.getD "") = ""
    · left
      exact ⟨_, by rw [process_blank_text req env up hkey htext]⟩
    · cases up with
      | apiError m =>
        right; left
        refine ⟨"Claude API error: " ++ m, ?_⟩
        unfold process
        rw [if_neg hkey, if_neg htext]
      | reply t =>
        cases hst : stripFences t with
        | error e =>
          right; left
          refine ⟨e, ?_⟩
          unfold process
          rw [if_neg hkey, if_neg htext]
          simp only [hst]
        | ok cleaned =>
          cases hp : parseJson cleaned with
          | error d =>
            right; left
            refine ⟨"Failed to parse Claude response as JSON: " ++ d, ?_⟩
            unfold process
            rw [if_neg hkey, if_neg htext]
            simp only [hst, hp]
          | ok parsed =>
            cases hl : logCheck (extractPolicies parsed) with
            | error e =>
              right; left
              refine ⟨e, ?_⟩
              unfold process
              rw [if_neg hkey, if_neg htext]
              simp only [hst, hp, hl]
            | ok u =>
              right; right
              refine ⟨t, cleaned, parsed, rfl, hst, hp, ?_, ?_⟩
              · cases u
                exact hl
              · unfold process
                rw [if_neg hkey, if_neg htext]
                simp only [hst, hp, hl]

/-! ### Lemmas about `pyStrip` -/

theorem dropWhile_append_all (p : Char → Bool) (w l : List Char)
    (hw : ∀ c ∈ w, p c = true) : (w ++ l).dropWhile p = l.dropWhile p := by
  induction w with
  | nil => rfl
  | cons c t ih =>
    simp only [List.cons_append, List.dropWhile_cons]
    rw [hw c (by simp)]
    simp only [if_true]
    exact ih (fun c hc => hw c (by simp [hc]))

theorem dropWhile_eq_nil_all (p : Char → Bool) (l : List Char)
    (h : ∀ c ∈ l, p c = true) : l.dropWhile p = [] := by
  induction l with
  | nil => rfl
  | cons c t ih =>
    simp only [List.dropWhile_cons]
    rw [h c (by simp)]
    simp only [if_true]
    exact ih (fun c hc => h c (by simp [hc]))

theorem dropWhile_head_false (p : Char → Bool) (l : List Char) (c : Char) (t : List Char)
    (h : l.dropWhile p = c :: t) : p c = false := by
  induction l with
  | nil => simp at h
  | cons c' t' ih =>
    simp only [List.dropWhile_cons] at h
    by_cases hp : p c' = true
    · rw [hp] at h
      simp only [if_true] at h
      exact ih h
    · rw [Bool.not_eq_true] at hp
      rw [hp] at h
      simp only [Bool.false_eq_true, if_false] at h
      cases h
      exact hp

/- `pyStripL cs` sits inside `cs` between two all-whitespace margins. -/
theorem pyStripL_decomp (cs : List Char) :
    ∃ w1 w2, cs = w1 ++ pyStripL cs ++ w2 ∧
      (∀ c ∈ w1, pyWs c = true) ∧ (∀ c ∈ w2, pyWs c = true) := by
  refine ⟨cs.takeWhile pyWs, ((cs.dropWhile pyWs).reverse.takeWhile pyWs).reverse,
    ?_, ?_, ?_⟩
  · unfold pyStripL
    rw [List.append_assoc]
    conv_lhs => rw [← List.takeWhile_append_dropWhile pyWs cs]
    congr 1
    conv_lhs => rw [← List.reverse_reverse (List.dropWhile pyWs cs),
      ← List.takeWhile_append_dropWhile pyWs (List.dropWhile pyWs cs).reverse]
    rw [List.reverse_append]
  · intro c hc
    exact List.mem_takeWhile_imp hc
  · intro c hc
    exact List.mem_takeWhile_imp (List.mem_reverse.mp hc)

theorem pyStripL_head (cs : List Char) (c : Char) (t : List Char)
    (h : pyStripL cs = c :: t) : pyWs c = false := by
  have hd : cs.dropWhile pyWs = pyStripL cs ++
      ((cs.dropWhile pyWs).reverse.takeWhile pyWs).reverse := by
    conv_lhs => rw [← List.reverse_reverse (cs.dropWhile pyWs),
      ← List.takeWhile_append_dropWhile pyWs (cs.dropWhile pyWs).reverse]
    rw [List.reverse_append]
    rfl
  rw [h] at hd
  exact dropWhile_head_false pyWs cs _ _ hd

theorem pyStripL_last (cs : List Char) (c : Char)
    (h : (pyStripL cs).getLast? = some c) : pyWs c = false := by
  rw [List.getLast?_eq_head?_reverse] at h
  unfold pyStripL at h
  rw [List.reverse_reverse] at h
  cases hr : ((cs.dropWhile pyWs).reverse.dropWhile pyWs) with
  | nil => rw [hr] at h; simp at h
  | cons c' t' =>
    rw [hr] at h
    simp only [List.head?_cons, Option.some.injEq] at h
    rw [← h]
    exact dropWhile_head_false pyWs _ _ _ hr

/- Uniqueness: stripping all-whitespace margins from around a list whose two
   ends are not whitespace yields exactly that list. -/
theorem pyStripL_spec (w1 core w2 : List Char)
    (hw1 : ∀ c ∈ w1, pyWs c = true) (hw2 : ∀ c ∈ w2, pyWs c = true)
    (hh : ∀ c t, core = c :: t → pyWs c = false)
    (hl : ∀ c, core.getLast? = some c → pyWs c = false)
    (hne : core ≠ []) :
    pyStripL (w1 ++ core ++ w2) = core := by
  cases hcore : core with
  | nil => exact absurd hcore hne
  | cons c t =>
    subst hcore
    unfold pyStripL
    have h1 : ((w1 ++ (c :: t) ++ w2).dropWhile pyWs) = (c :: t) ++ w2 := by
      rw [List.append_assoc, dropWhile_append_all pyWs w1 _ hw1, List.cons_append,
        List.dropWhile_cons, hh c t rfl]
      simp
    rw [h1]
    have h2 : (((c :: t) ++ w2).reverse.dropWhile pyWs) = (c :: t).reverse := by
      rw [List.reverse_append, dropWhile_append_all pyWs w2.reverse _
        (fun c hc => hw2 c (List.mem_reverse.mp hc))]
      cases hrev : (c :: t).reverse with
      | nil => simp at hrev
      | cons cl tl =>
        rw [List.dropWhile_cons,
          hl cl (by rw [List.getLast?_eq_head?_reverse, hrev]; rfl)]
        simp
    rw [h2, List.reverse_reverse]

theorem pyStripL_allWs (cs : List Char) (h : ∀ c ∈ cs, pyWs c = true) :
    pyStripL cs = [] := by
  unfold pyStripL
  rw [dropWhile_eq_nil_all pyWs cs h]
  rfl

theorem pyStripL_idem (cs : List Char) : pyStripL (pyStripL cs) = pyStripL cs := by
  cases h : pyStripL cs with
  | nil => rfl
  | cons c t =>
    have := pyStripL_spec [] (c :: t) [] (by simp) (by simp)
      (fun c' t' he => by cases he; exact pyStripL_head cs _ _ h)
      (fun c' he => pyStripL_last cs c' (by rw [h]; exact he))
      (by simp)
    simpa using this

theorem pyStripL_append_ws (cs : List Char) (x : Char) (hx : pyWs x = true) :
    pyStripL (cs ++ [x]) = pyStripL cs := by
  obtain ⟨w1, w2, hdec, hw1, hw2⟩ := pyStripL_decomp cs
  cases h : pyStripL cs with
  | nil =>
    rw [h] at hdec
    apply pyStripL_allWs
    intro c hc
    rw [List.mem_append] at hc
    cases hc with
    | inl hc =>
      rw [hdec] at hc
      simp only [List.append_nil, List.mem_append] at hc
      cases hc with
      | inl hc => exact hw1 c hc
      | inr hc => exact hw2 c hc
    | inr hc =>
      simp at hc
      rw [hc]
      exact hx
  | cons c t =>
    have key : cs ++ [x] = w1 ++ (c :: t) ++ (w2 ++ [x]) := by
      conv_lhs => rw [hdec, h]
      simp [List.append_assoc]
    rw [key, pyStripL_spec w1 (c :: t) (w2 ++ [x]) hw1
      (by
        intro c' hc'
        rw [List.mem_append] at hc'
        cases hc' with
        | inl hc' => exact hw2 c' hc'
        | inr hc' => simp at hc'; rw [hc']; exact hx)
      (fun c' t' he => by cases he; exact pyStripL_head cs _ _ h)
      (fun c' he => pyStripL_last cs c' (by rw [h]; exact he))
      (by simp)]

/-! ### Fence wrapping -/

/- A model reply wrapping `s` in a leading fence line with a json language
   tag and a trailing fence marker. -/
def wrapFence (s : String) : String :=
  "\x60\x60\x60json\n" ++ s ++ "\n\x60\x60\x60"

theorem stripFencesL_wrap (l : List Char) :
    stripFencesL (btick :: btick :: btick :: 'j' :: 's' :: 'o' :: 'n' :: '\n' ::
      (l ++ ['\n', btick, btick, btick])) = .ok (pyStripL l) := by
  have hself : pyStripL (btick :: btick :: btick :: 'j' :: 's' :: 'o' :: 'n' :: '\n' ::
      (l ++ ['\n', btick, btick, btick])) =
      btick :: btick :: btick :: 'j' :: 's' :: 'o' :: 'n' :: '\n' ::
      (l ++ ['\n', btick, btick, btick]) := by
    have h := pyStripL_spec []
      (btick :: btick :: btick :: 'j' :: 's' :: 'o' :: 'n' :: '\n' ::
        (l ++ ['\n', btick, btick, btick])) []
      (by simp) (by simp)
      (fun c t he => by cases he; decide)
      (fun c he => by
        have hw : btick :: btick :: btick :: 'j' :: 's' :: 'o' :: 'n' :: '\n' ::
            (l ++ ['\n', btick, btick, btick]) =
            (btick :: btick :: btick :: 'j' :: 's' :: 'o' :: 'n' :: '\n' ::
              (l ++ ['\n', btick, btick])) ++ [btick] := by
          simp
        rw [hw, List.getLast?_concat] at he
        cases he
        decide)
      (by simp)
    simpa using h
  have hfe : fenceEndL (l ++ ['\n', btick, btick, btick]) = true := by
    unfold fenceEndL
    rw [List.reverse_append]
    rfl
  have hcut : cutLast3 (l ++ ['\n', btick, btick, btick]) = l ++ ['\n'] := by
    unfold cutLast3
    rw [List.reverse_append]
    show (('\n' :: l.reverse)).reverse = l ++ ['\n']
    rw [List.reverse_cons, List.reverse_reverse]
  simp only [stripFencesL, hself]
  rw [show (fenceStartL (btick :: btick :: btick :: 'j' :: 's' :: 'o' :: 'n' :: '\n' ::
    (l ++ ['\n', btick, btick, btick]))) = true from rfl]
  simp only [if_true]
  rw [show dropThroughNewline (btick :: btick :: btick :: 'j' :: 's' :: 'o' :: 'n' :: '\n' ::
    (l ++ ['\n', btick, btick, btick])) = some (l ++ ['\n', btick, btick, btick]) from rfl]
  simp only [hfe, if_true, hcut]
  rw [pyStripL_append_ws l '\n' (by decide)]

theorem stripFences_wrap (s : String) :
    stripFences (wrapFence s) = .ok (pyStrip s) := by
  unfold stripFences wrapFence pyStrip
  rw [show ("\x60\x60\x60json\n" ++ s ++ "\n\x60\x60\x60").data =
      btick :: btick :: btick :: 'j' :: 's' :: 'o' :: 'n' :: '\n' ::
      (s.data ++ ['\n', btick, btick, btick]) from by
    rw [String.data_append, String.data_append]
    rfl]
  rw [stripFencesL_wrap s.data]

/-! ### Idempotence of fence stripping on fence-free results -/

theorem stripFencesL_output (cs out : List Char) (h : stripFencesL cs = .ok out) :
    pyStripL out = out := by
  simp only [stripFencesL] at h
  split at h
  · cases h
  · cases h
    exact pyStripL_idem _

theorem stripFences_fixed (t : String)
    (ht : pyStripL t.data = t.data)
    (h1 : fenceStartL t.data = false) (h2 : fenceEndL t.data = false) :
    stripFences t = .ok t := by
  unfold stripFences
  simp only [stripFencesL, ht, h1, Bool.false_eq_true, if_false, h2]

/-! ### Parser boundary lemmas -/

theorem jsonWs_pyWs (c : Char) (h : jsonWs c = true) : pyWs c = true := by
  unfold jsonWs at h
  simp only [Bool.or_eq_true, decide_eq_true_eq] at h
  rcases h with ((h | h) | h) | h
  all_goals subst h
  all_goals decide

theorem skipWs_decomp (cs : List Char) :
    ∃ w, cs = w ++ skipWs cs ∧ ∀ c ∈ w, jsonWs c = true := by
  induction cs with
  | nil => exact ⟨[], rfl, by simp⟩
  | cons c t ih =>
    by_cases h : jsonWs c = true
    · obtain ⟨w, hw, hall⟩ := ih
      refine ⟨c :: w, ?_, ?_⟩
      · show c :: t = (c :: w) ++ skipWs (c :: t)
        unfold skipWs
        rw [if_pos h, List.cons_append, ← hw]
      · intro c' hc'
        rcases List.mem_cons.mp hc' with h' | h'
        · rw [h']; exact h
        · exact hall c' h'
    · refine ⟨[], ?_, by simp⟩
      show c :: t = [] ++ skipWs (c :: t)
      unfold skipWs
      rw [if_neg h]
      rfl

theorem skipWs_nil_all (cs : List Char) (h : skipWs cs = []) :
    ∀ c ∈ cs, jsonWs c = true := by
  induction cs with
  | nil => simp
  | cons c t ih =>
    unfold skipWs at h
    by_cases hc : jsonWs c = true
    · rw [if_pos hc] at h
      intro c' hc'
      rcases List.mem_cons.mp hc' with h' | h'
      · rw [h']; exact hc
      · exact ih h c' h'
    · rw [if_neg hc] at h
      cases h

/- The characters a successfully parsed JSON value can end with: a closing
   quote, bracket or brace, a digit, or the final letter of null/true/false/
   NaN/Infinity. None of them is whitespace or a backtick. -/
def GoodEnd (c : Char) : Bool :=
  c = qt || c = ']' || c = rbrace || c.isDigit || c = 'l' || c = 'e' ||
  c = 'N' || c = 'y'

theorem digit_toNat (c : Char) (h : c.isDigit = true) :
    48 ≤ c.toNat ∧ c.toNat ≤ 57 := by
  unfold Char.isDigit at h
  simp only [Bool.and_eq_true, decide_eq_true_eq] at h
  obtain ⟨h1, h2⟩ := h
  constructor
  · exact h1
  · exact h2

theorem digit_boundary (c : Char) (h : c.isDigit = true) :
    pyWs c = false ∧ c ≠ btick := by
  obtain ⟨h48, h57⟩ := digit_toNat c h
  constructor
  · rw [Bool.eq_false_iff]
    intro hcon
    unfold pyWs at hcon
    simp only [Bool.or_eq_true, decide_eq_true_eq, Bool.and_eq_true] at hcon
    omega
  · intro he
    subst he
    have : btick.toNat = 96 := rfl
    omega

theorem goodEnd_boundary (c : Char) (h : GoodEnd c = true) :
    pyWs c = false ∧ c ≠ btick := by
  unfold GoodEnd at h
  simp only [Bool.or_eq_true, decide_eq_true_eq] at h
  rcases h with ((((((h | h) | h) | h) | h) | h) | h) | h
  all_goals first
    | exact digit_boundary c h
    | (subst h; exact ⟨by decide, by decide⟩)

theorem parseHex4_decomp (l : List Char) (n : Nat) (r : List Char)
    (h : parseHex4 l = some (n, r)) : ∃ a b c d, l = a :: b :: c :: d :: r := by
  match l with
  | [] => simp [parseHex4] at h
  | [_] => simp [parseHex4] at h
  | [_, _] => simp [parseHex4] at h
  | [_, _, _] => simp [parseHex4] at h
  | a :: b :: c :: d :: rest =>
    refine ⟨a, b, c, d, ?_⟩
    simp only [parseHex4] at h
    split at h
    · cases h
      rfl
    · cases h

/- A successful string-body parse consumes up to and including a closing
   quote. -/
set_option maxHeartbeats 1000000 in
theorem parseStringBody_consumed :
    ∀ (fuel : Nat) (acc cs : List Char) (s : String) (rest : List Char),
      parseStringBody fuel acc cs = .ok (s, rest) → ∃ pre, cs = pre ++ qt :: rest
  | 0, acc, cs, s, rest, h => by simp [parseStringBody] at h
  | fuel + 1, acc, [], s, rest, h => by simp [parseStringBody] at h
  | fuel + 1, acc, c :: cs', s, rest, h => by
    simp only [parseStringBody] at h
    by_cases hq : c = qt
    · rw [if_pos hq] at h
      simp only [Except.ok.injEq, Prod.mk.injEq] at h
      exact ⟨[], by rw [hq, h.2]; rfl⟩
    · rw [if_neg hq] at h
      by_cases hb : c = bslash
      · rw [if_pos hb] at h
        rcases cs' with _ | ⟨e, rest2⟩
        · cases h
        · dsimp only at h
          by_cases he1 : e = qt
          · rw [if_pos he1] at h
            obtain ⟨pre', hp⟩ := parseStringBody_consumed fuel _ rest2 s rest h
            exact ⟨c :: e :: pre', by rw [hp]; rfl⟩
          · rw [if_neg he1] at h
            by_cases he2 : e = bslash
            · rw [if_pos he2] at h
              obtain ⟨pre', hp⟩ := parseStringBody_consumed fuel _ rest2 s rest h
              exact ⟨c :: e :: pre', by rw [hp]; rfl⟩
            · rw [if_neg he2] at h
              by_cases he3 : e = '/'
              · rw [if_pos he3] at h
                obtain ⟨pre', hp⟩ := parseStringBody_consumed fuel _ rest2 s rest h
                exact ⟨c :: e :: pre', by rw [hp]; rfl⟩
              · rw [if_neg he3] at h
                by_cases he4 : e = 'b'
                · rw [if_pos he4] at h
                  obtain ⟨pre', hp⟩ := parseStringBody_consumed fuel _ rest2 s rest h
                  exact ⟨c :: e :: pre', by rw [hp]; rfl⟩
                · rw [if_neg he4] at h
                  by_cases he5 : e = 'f'
                  · rw [if_pos he5] at h
                    obtain ⟨pre', hp⟩ := parseStringBody_consumed fuel _ rest2 s rest h
                    exact ⟨c :: e :: pre', by rw [hp]; rfl⟩
                  · rw [if_neg he5] at h
                    by_cases he6 : e = 'n'
                    · rw [if_pos he6] at h
                      obtain ⟨pre', hp⟩ := parseStringBody_consumed fuel _ rest2 s rest h
                      exact ⟨c :: e :: pre', by rw [hp]; rfl⟩
                    · rw [if_neg he6] at h
                      by_cases he7 : e = 'r'
                      · rw [if_pos he7] at h
                        obtain ⟨pre', hp⟩ := parseStringBody_consumed fuel _ rest2 s rest h
                        exact ⟨c :: e :: pre', by rw [hp]; rfl⟩
                      · rw [if_neg he7] at h
                        by_cases he8 : e = 't'
                        · rw [if_pos he8] at h
                          obtain ⟨pre', hp⟩ := parseStringBody_consumed fuel _ rest2 s rest h
                          exact ⟨c :: e :: pre', by rw [hp]; rfl⟩
                        · rw [if_neg he8] at h
                          by_cases he9 : e = 'u'
                          · rw [if_pos he9] at h
                            cases hh : parseHex4 rest2 with
                            | none => rw [hh] at h; cases h
                            | some pr =>
                              obtain ⟨hv, rest3⟩ := pr
                              rw [hh] at h
                              dsimp only at h
                              obtain ⟨a, b, c2, d, hr2⟩ := parseHex4_decomp rest2 hv rest3 hh
                              by_cases hsur : (55296 ≤ hv && hv ≤ 56319) = true
                              · rw [if_pos hsur] at h
                                rcases rest3 with _ | ⟨b1, _ | ⟨u1, tail⟩⟩
                                · dsimp only at h
                                  obtain ⟨pre', hp⟩ :=
                                    parseStringBody_consumed fuel _ _ s rest h
                                  exact ⟨c :: e :: a :: b :: c2 :: d :: pre',
                                    by rw [hr2, hp]; rfl⟩
                                · dsimp only at h
                                  obtain ⟨pre', hp⟩ :=
                                    parseStringBody_consumed fuel _ _ s rest h
                                  exact ⟨c :: e :: a :: b :: c2 :: d :: pre',
                                    by rw [hr2, hp]; rfl⟩
                                · dsimp only at h
                                  by_cases hbu : b1 = bslash ∧ u1 = 'u'
                                  · rw [if_pos hbu] at h
                                    cases hh2 : parseHex4 tail with
                                    | none =>
                                      rw [hh2] at h
                                      obtain ⟨pre', hp⟩ :=
                                        parseStringBody_consumed fuel _ _ s rest h
                                      exact ⟨c :: e :: a :: b :: c2 :: d :: pre',
                                        by rw [hr2, hp]; rfl⟩
                                    | some pr2 =>
                                      obtain ⟨lv, rest4⟩ := pr2
                                      rw [hh2] at h
                                      dsimp only at h
                                      obtain ⟨a2, b2, c3, d2, ht⟩ :=
                                        parseHex4_decomp tail lv rest4 hh2
                                      by_cases hlow : (56320 ≤ lv && lv ≤ 57343) = true
                                      · rw [if_pos hlow] at h
                                        obtain ⟨pre', hp⟩ :=
                                          parseStringBody_consumed fuel _ _ s rest h
                                        exact ⟨c :: e :: a :: b :: c2 :: d :: b1 :: u1 ::
                                          a2 :: b2 :: c3 :: d2 :: pre',
                                          by rw [hr2, ht, hp]; rfl⟩
                                      · rw [if_neg hlow] at h
                                        obtain ⟨pre', hp⟩ :=
                                          parseStringBody_consumed fuel _ _ s rest h
                                        exact ⟨c :: e :: a :: b :: c2 :: d :: pre',
                                          by rw [hr2, hp]; rfl⟩
                                  · rw [if_neg hbu] at h
                                    obtain ⟨pre', hp⟩ :=
                                      parseStringBody_consumed fuel _ _ s rest h
                                    exact ⟨c :: e :: a :: b :: c2 :: d :: pre',
                                      by rw [hr2, hp]; rfl⟩
                              · rw [if_neg hsur] at h
                                obtain ⟨pre', hp⟩ :=
                                  parseStringBody_consumed fuel _ _ s rest h
                                exact ⟨c :: e :: a :: b :: c2 :: d :: pre',
                                  by rw [hr2, hp]; rfl⟩
                          · rw [if_neg he9] at h
                            cases h
      · rw [if_neg hb] at h
        by_cases hctl : c.toNat < 32
        · rw [if_pos hctl] at h
          cases h
        · rw [if_neg hctl] at h
          obtain ⟨pre', hp⟩ := parseStringBody_consumed fuel _ cs' s rest h
          exact ⟨c :: pre', by rw [hp]; rfl⟩

theorem takeWhile_last (p : Char → Bool) :
    ∀ (l : List Char), l.takeWhile p ≠ [] →
      ∃ q d, l.takeWhile p = q ++ [d] ∧ p d = true
  | [], h => absurd rfl h
  | c :: t, h => by
    by_cases hc : p c = true
    · cases htw : t.takeWhile p with
      | nil => exact ⟨[], c, by rw [List.takeWhile_cons, if_pos hc, htw]; rfl, hc⟩
      | cons x xs =>
        obtain ⟨q, d, hq, hd⟩ := takeWhile_last p t (by rw [htw]; simp)
        exact ⟨c :: q, d, by rw [List.takeWhile_cons, if_pos hc, hq]; rfl, hd⟩
    · rw [Bool.not_eq_true] at hc
      rw [List.takeWhile_cons] at h
      rw [hc] at h
      simp at h

theorem parseFracPart_decomp (cs f r : List Char) (h : parseFracPart cs = (f, r)) :
    cs = f ++ r ∧ (f = [] ∨ ∃ q d, f = q ++ [d] ∧ d.isDigit = true) := by
  rcases cs with _ | ⟨c, rest⟩
  · cases h
    exact ⟨rfl, Or.inl rfl⟩
  · simp only [parseFracPart] at h
    by_cases hc : c = '.'
    · rw [if_pos hc] at h
      by_cases hds : rest.takeWhile Char.isDigit = []
      · rw [if_pos hds] at h
        cases h
        exact ⟨rfl, Or.inl rfl⟩
      · rw [if_neg hds] at h
        cases h
        constructor
        · subst hc
          rw [List.cons_append, List.takeWhile_append_dropWhile]
        · right
          obtain ⟨q, d, hq, hd⟩ := takeWhile_last Char.isDigit rest hds
          exact ⟨'.' :: q, d, by rw [hq]; rfl, hd⟩
    · rw [if_neg hc] at h
      cases h
      exact ⟨rfl, Or.inl rfl⟩

theorem parseExpPart_decomp (cs f r : List Char) (h : parseExpPart cs = (f, r)) :
    cs = f ++ r ∧ (f = [] ∨ ∃ q d, f = q ++ [d] ∧ d.isDigit = true) := by
  rcases cs with _ | ⟨c, rest⟩
  · cases h
    exact ⟨rfl, Or.inl rfl⟩
  · simp only [parseExpPart] at h
    by_cases hc : (c = 'e' || c = 'E') = true
    · rw [if_pos hc] at h
      rcases rest with _ | ⟨s, r1⟩
      · cases h
        exact ⟨rfl, Or.inl rfl⟩
      · dsimp only at h
        by_cases hs : (s = '+' || s = '-') = true
        · rw [if_pos hs] at h
          by_cases hds : r1.takeWhile Char.isDigit = []
          · rw [if_pos hds] at h
            cases h
            exact ⟨rfl, Or.inl rfl⟩
          · rw [if_neg hds] at h
            cases h
            constructor
            · rw [List.cons_append, List.cons_append,
                List.takeWhile_append_dropWhile]
            · right
              obtain ⟨q, d, hq, hd⟩ := takeWhile_last Char.isDigit r1 hds
              exact ⟨c :: s :: q, d, by rw [hq]; rfl, hd⟩
        · rw [if_neg hs] at h
          by_cases hds : (s :: r1).takeWhile Char.isDigit = []
          · rw [if_pos hds] at h
            cases h
            exact ⟨rfl, Or.inl rfl⟩
          · rw [if_neg hds] at h
            cases h
            constructor
            · rw [List.cons_append, List.takeWhile_append_dropWhile]
            · right
              obtain ⟨q, d, hq, hd⟩ := takeWhile_last Char.isDigit (s :: r1) hds
              exact ⟨c :: q, d, by rw [hq]; rfl, hd⟩
    · rw [if_neg hc] at h
      cases h
      exact ⟨rfl, Or.inl rfl⟩

theorem parseNumTail_consumed (sgn : List Char) (c : Char) (r : List Char)
    (lit : String) (rest : List Char) (h : parseNumTail sgn c r = .ok (lit, rest)) :
    ∃ pre d, c :: r = pre ++ d :: rest ∧ d.isDigit = true := by
  unfold parseNumTail at h
  by_cases hc : c = '0'
  · rw [if_pos hc] at h
    cases hf : parseFracPart r with
    | mk f r2 =>
      rw [hf] at h
      dsimp only at h
      cases he : parseExpPart r2 with
      | mk e r3 =>
        rw [he] at h
        dsimp only at h
        simp only [Except.ok.injEq, Prod.mk.injEq] at h
        obtain ⟨hfr, hfd⟩ := parseFracPart_decomp r f r2 hf
        obtain ⟨her, hed⟩ := parseExpPart_decomp r2 e r3 he
        subst hfr her
        rw [← h.2]
        rcases hed with he0 | ⟨q, d, hq, hd⟩
        · subst he0
          rcases hfd with hf0 | ⟨q, d, hq, hd⟩
          · subst hf0
            exact ⟨[], c, by simp, by rw [hc]; decide⟩
          · subst hq
            exact ⟨c :: q, d, by simp, hd⟩
        · subst hq
          exact ⟨c :: f ++ q, d, by simp, hd⟩
  · rw [if_neg hc] at h
    by_cases hdig : c.isDigit = true
    · rw [if_pos hdig] at h
      cases hf : parseFracPart (r.dropWhile Char.isDigit) with
      | mk f r2 =>
        rw [hf] at h
        dsimp only at h
        cases he : parseExpPart r2 with
        | mk e r3 =>
          rw [he] at h
          dsimp only at h
          simp only [Except.ok.injEq, Prod.mk.injEq] at h
          obtain ⟨hfr, hfd⟩ := parseFracPart_decomp _ f r2 hf
          obtain ⟨her, hed⟩ := parseExpPart_decomp r2 e r3 he
          rw [← h.2]
          have hr : r = r.takeWhile Char.isDigit ++ (f ++ (e ++ r3)) := by
            rw [← her, ← hfr, List.takeWhile_append_dropWhile]
          rcases hed with he0 | ⟨q, d, hq, hd⟩
          · subst he0
            rcases hfd with hf0 | ⟨q, d, hq, hd⟩
            · subst hf0
              by_cases hds : r.takeWhile Char.isDigit = []
              · rw [hds] at hr
                exact ⟨[], c, by rw [hr]; simp, hdig⟩
              · obtain ⟨q, d, hq, hd⟩ := takeWhile_last Char.isDigit r hds
                rw [hq] at hr
                exact ⟨c :: q, d, by rw [hr]; simp, hd⟩
            · subst hq
              rw [hr]
              exact ⟨c :: r.takeWhile Char.isDigit ++ q, d, by simp, hd⟩
          · subst hq
            rw [hr]
            exact ⟨c :: r.takeWhile Char.isDigit ++ f ++ q, d, by simp, hd⟩
    · rw [if_neg hdig] at h
      cases h

theorem parseNumber_consumed (cs : List Char) (lit : String) (rest : List Char)
    (h : parseNumber cs = .ok (lit, rest)) :
    ∃ pre d, cs = pre ++ d :: rest ∧ d.isDigit = true := by
  rcases cs with _ | ⟨c, cs1⟩
  · cases h
  · simp only [parseNumber] at h
    by_cases hm : c = '-'
    · rw [if_pos hm] at h
      rcases cs1 with _ | ⟨c2, r⟩
      · cases h
      · dsimp only at h
        obtain ⟨pre, d, hp, hd⟩ := parseNumTail_consumed ['-'] c2 r lit rest h
        exact ⟨c :: pre, d, by rw [List.cons_append, ← hp], hd⟩
    · rw [if_neg hm] at h
      obtain ⟨pre, d, hp, hd⟩ := parseNumTail_consumed [] c cs1 lit rest h
      exact ⟨pre, d, hp, hd⟩

/- The consumed span of a successful parse: the input is the remainder
   prefixed with a nonempty chunk whose final character is a `GoodEnd`. -/
def ConsumedOk (cs rest : List Char) : Prop :=
  ∃ pre c, cs = pre ++ c :: rest ∧ GoodEnd c = true

theorem consumedOk_prepend (pfx cs rest : List Char) (h : ConsumedOk cs rest) :
    ConsumedOk (pfx ++ cs) rest := by
  obtain ⟨pre, c, h1, h2⟩ := h
  exact ⟨pfx ++ pre, c, by rw [h1, List.append_assoc], h2⟩

/- A successful parse starts at a character that is neither whitespace nor
   a backtick (the possible value-start characters). -/
theorem parseValue_start (fuel : Nat) (cs : List Char) (x : Json × List Char)
    (h : parseValue fuel cs = .ok x) :
    ∃ c r, cs = c :: r ∧ pyWs c = false ∧ c ≠ btick := by
  rcases fuel with _ | fuel
  · simp [parseValue] at h
  · rcases cs with _ | ⟨c, cs'⟩
    · simp [parseValue] at h
    · refine ⟨c, cs', rfl, ?_⟩
      simp only [parseValue] at h
      by_cases h1 : c = qt
      · subst h1; exact ⟨by decide, by decide⟩
      rw [if_neg h1] at h
      by_cases h2 : c = lbrace
      · subst h2; exact ⟨by decide, by decide⟩
      rw [if_neg h2] at h
      by_cases h3 : c = '['
      · subst h3; exact ⟨by decide, by decide⟩
      rw [if_neg h3] at h
      by_cases h4 : c = 'n'
      · subst h4; exact ⟨by decide, by decide⟩
      rw [if_neg h4] at h
      by_cases h5 : c = 't'
      · subst h5; exact ⟨by decide, by decide⟩
      rw [if_neg h5] at h
      by_cases h6 : c = 'f'
      · subst h6; exact ⟨by decide, by decide⟩
      rw [if_neg h6] at h
      by_cases h7 : c = 'N'
      · subst h7; exact ⟨by decide, by decide⟩
      rw [if_neg h7] at h
      by_cases h8 : c = 'I'
      · subst h8; exact ⟨by decide, by decide⟩
      rw [if_neg h8] at h
      by_cases h9 : c = '-'
      · subst h9; exact ⟨by decide, by decide⟩
      rw [if_neg h9] at h
      by_cases h10 : c.isDigit = true
      · exact digit_boundary c h10
      · rw [if_neg h10] at h
        cases h

mutual

theorem parseValue_consumed :
    ∀ (fuel : Nat) (cs : List Char) (v : Json) (rest : List Char),
      parseValue fuel cs = .ok (v, rest) → ConsumedOk cs rest
  | 0, cs, v, rest, h => by simp [parseValue] at h
  | fuel + 1, cs, v, rest, h => by
    rcases cs with _ | ⟨c, cs'⟩
    · simp [parseValue] at h
    · simp only [parseValue] at h
      by_cases h1 : c = qt
      · rw [if_pos h1] at h
        cases hsb : parseStringBody (cs'.length + 1) [] cs' with
        | error e => rw [hsb] at h; cases h
        | ok pr =>
          obtain ⟨str, r1⟩ := pr
          rw [hsb] at h
          dsimp only at h
          simp only [Except.ok.injEq, Prod.mk.injEq] at h
          obtain ⟨pre, hp⟩ := parseStringBody_consumed _ _ _ _ _ hsb
          refine ⟨c :: pre, qt, ?_, by decide⟩
          rw [← h.2, hp]
          rfl
      · rw [if_neg h1] at h
        by_cases h2 : c = lbrace
        · rw [if_pos h2] at h
          cases hsw : skipWs cs' with
          | nil => rw [hsw] at h; cases h
          | cons d r2 =>
            rw [hsw] at h
            dsimp only at h
            obtain ⟨w, hw, _⟩ := skipWs_decomp cs'
            by_cases hd : d = rbrace
            · rw [if_pos hd] at h
              simp only [Except.ok.injEq, Prod.mk.injEq] at h
              refine ⟨c :: w, rbrace, ?_, by decide⟩
              rw [← h.2]
              conv_lhs => rw [hw, hsw, hd]
              rfl
            · rw [if_neg hd] at h
              cases hop : parseObjPairs fuel [] (d :: r2) with
              | error e => rw [hop] at h; cases h
              | ok pr =>
                obtain ⟨entries, r3⟩ := pr
                rw [hop] at h
                dsimp only at h
                simp only [Except.ok.injEq, Prod.mk.injEq] at h
                rw [← h.2]
                have hshape : c :: cs' = (c :: w) ++ (d :: r2) := by
                  conv_lhs => rw [hw, hsw]
                  rfl
                rw [hshape]
                exact consumedOk_prepend (c :: w) _ _
                  (parseObjPairs_consumed fuel [] (d :: r2) entries r3 hop)
        · rw [if_neg h2] at h
          by_cases h3 : c = '['
          · rw [if_pos h3] at h
            cases hsw : skipWs cs' with
            | nil => rw [hsw] at h; cases h
            | cons d r2 =>
              rw [hsw] at h
              dsimp only at h
              obtain ⟨w, hw, _⟩ := skipWs_decomp cs'
              by_cases hd : d = ']'
              · rw [if_pos hd] at h
                simp only [Except.ok.injEq, Prod.mk.injEq] at h
                refine ⟨c :: w, ']', ?_, by decide⟩
                rw [← h.2]
                conv_lhs => rw [hw, hsw, hd]
                rfl
              · rw [if_neg hd] at h
                cases hai : parseArrItems fuel [] (d :: r2) with
                | error e => rw [hai] at h; cases h
                | ok pr =>
                  obtain ⟨elems, r3⟩ := pr
                  rw [hai] at h
                  dsimp only at h
                  simp only [Except.ok.injEq, Prod.mk.injEq] at h
                  rw [← h.2]
                  have hshape : c :: cs' = (c :: w) ++ (d :: r2) := by
                    conv_lhs => rw [hw, hsw]
                    rfl
                  rw [hshape]
                  exact consumedOk_prepend (c :: w) _ _
                    (parseArrItems_consumed fuel [] (d :: r2) elems r3 hai)
          · rw [if_neg h3] at h
            by_cases h4 : c = 'n'
            · rw [if_pos h4] at h
              by_cases ht : cs'.take 3 = ['u', 'l', 'l']
              · rw [if_pos ht] at h
                simp only [Except.ok.injEq, Prod.mk.injEq] at h
                refine ⟨[c, 'u', 'l'], 'l', ?_, by decide⟩
                rw [← h.2]
                conv_lhs => rw [show cs' = cs'.take 3 ++ cs'.drop 3 from
                  (List.take_append_drop 3 cs').symm, ht]
                rfl
              · rw [if_neg ht] at h; cases h
            · rw [if_neg h4] at h
              by_cases h5 : c = 't'
              · rw [if_pos h5] at h
                by_cases ht : cs'.take 3 = ['r', 'u', 'e']
                · rw [if_pos ht] at h
                  simp only [Except.ok.injEq, Prod.mk.injEq] at h
                  refine ⟨[c, 'r', 'u'], 'e', ?_, by decide⟩
                  rw [← h.2]
                  conv_lhs => rw [show cs' = cs'.take 3 ++ cs'.drop 3 from
                    (List.take_append_drop 3 cs').symm, ht]
                  rfl
                · rw [if_neg ht] at h; cases h
              · rw [if_neg h5] at h
                by_cases h6 : c = 'f'
                · rw [if_pos h6] at h
                  by_cases ht : cs'.take 4 = ['a', 'l', 's', 'e']
                  · rw [if_pos ht] at h
                    simp only [Except.ok.injEq, Prod.mk.injEq] at h
                    refine ⟨[c, 'a', 'l', 's'], 'e', ?_, by decide⟩
                    rw [← h.2]
                    conv_lhs => rw [show cs' = cs'.take 4 ++ cs'.drop 4 from
                      (List.take_append_drop 4 cs').symm, ht]
                    rfl
                  · rw [if_neg ht] at h; cases h
                · rw [if_neg h6] at h
                  by_cases h7 : c = 'N'
                  · rw [if_pos h7] at h
                    by_cases ht : cs'.take 2 = ['a', 'N']
                    · rw [if_pos ht] at h
                      simp only [Except.ok.injEq, Prod.mk.injEq] at h
                      refine ⟨[c, 'a'], 'N', ?_, by decide⟩
                      rw [← h.2]
                      conv_lhs => rw [show cs' = cs'.take 2 ++ cs'.drop 2 from
                        (List.take_append_drop 2 cs').symm, ht]
                      rfl
                    · rw [if_neg ht] at h; cases h
                  · rw [if_neg h7] at h
                    by_cases h8 : c = 'I'
                    · rw [if_pos h8] at h
                      by_cases ht : cs'.take 7 = ['n', 'f', 'i', 'n', 'i', 't', 'y']
                      · rw [if_pos ht] at h
                        simp only [Except.ok.injEq, Prod.mk.injEq] at h
                        refine ⟨[c, 'n', 'f', 'i', 'n', 'i', 't'], 'y', ?_, by decide⟩
                        rw [← h.2]
                        conv_lhs => rw [show cs' = cs'.take 7 ++ cs'.drop 7 from
                          (List.take_append_drop 7 cs').symm, ht]
                        rfl
                      · rw [if_neg ht] at h; cases h
                    · rw [if_neg h8] at h
                      by_cases h9 : c = '-'
                      · rw [if_pos h9] at h
                        by_cases ht : cs'.take 8 = ['I', 'n', 'f', 'i', 'n', 'i', 't', 'y']
                        · rw [if_pos ht] at h
                          simp only [Except.ok.injEq, Prod.mk.injEq] at h
                          refine ⟨[c, 'I', 'n', 'f', 'i', 'n', 'i', 't'], 'y', ?_, by decide⟩
                          rw [← h.2]
                          conv_lhs => rw [show cs' = cs'.take 8 ++ cs'.drop 8 from
                            (List.take_append_drop 8 cs').symm, ht]
                          rfl
                        · rw [if_neg ht] at h
                          cases hpn : parseNumber (c :: cs') with
                          | error e => rw [hpn] at h; cases h
                          | ok pr =>
                            obtain ⟨lit, r1⟩ := pr
                            rw [hpn] at h
                            dsimp only at h
                            simp only [Except.ok.injEq, Prod.mk.injEq] at h
                            obtain ⟨pre, d, hp, hd⟩ := parseNumber_consumed _ _ _ hpn
                            refine ⟨pre, d, ?_, by simp [GoodEnd, hd]⟩
                            rw [← h.2, ← hp]
                      · rw [if_neg h9] at h
                        by_cases h10 : c.isDigit = true
                        · rw [if_pos h10] at h
                          cases hpn : parseNumber (c :: cs') with
                          | error e => rw [hpn] at h; cases h
                          | ok pr =>
                            obtain ⟨lit, r1⟩ := pr
                            rw [hpn] at h
                            dsimp only at h
                            simp only [Except.ok.injEq, Prod.mk.injEq] at h
                            obtain ⟨pre, d, hp, hd⟩ := parseNumber_consumed _ _ _ hpn
                            refine ⟨pre, d, ?_, by simp [GoodEnd, hd]⟩
                            rw [← h.2, ← hp]
                        · rw [if_neg h10] at h
                          cases h

theorem parseArrItems_consumed :
    ∀ (fuel : Nat) (acc : List Json) (cs : List Char) (l : List Json)
      (rest : List Char),
      parseArrItems fuel acc cs = .ok (l, rest) → ConsumedOk cs rest
  | 0, acc, cs, l, rest, h => by simp [parseArrItems] at h
  | fuel + 1, acc, cs, l, rest, h => by
    simp only [parseArrItems] at h
    cases hpv : parseValue fuel cs with
    | error e => rw [hpv] at h; cases h
    | ok pr =>
      obtain ⟨v, r1⟩ := pr
      rw [hpv] at h
      dsimp only at h
      cases hsw : skipWs r1 with
      | nil => rw [hsw] at h; cases h
      | cons d r2 =>
        rw [hsw] at h
        dsimp only at h
        obtain ⟨preV, cV, hpre, hgood⟩ := parseValue_consumed fuel cs v r1 hpv
        obtain ⟨w, hw, _⟩ := skipWs_decomp r1
        by_cases hd : d = ']'
        · rw [if_pos hd] at h
          simp only [Except.ok.injEq, Prod.mk.injEq] at h
          refine ⟨preV ++ cV :: w, ']', ?_, by decide⟩
          rw [← h.2, hpre]
          conv_lhs => rw [hw, hsw, hd]
          simp
        · rw [if_neg hd] at h
          by_cases hc2 : d = ','
          · rw [if_pos hc2] at h
            obtain ⟨w2, hw2, _⟩ := skipWs_decomp r2
            have hshape : cs = (preV ++ cV :: w ++ d :: w2) ++ skipWs r2 := by
              rw [hpre]
              conv_lhs => rw [hw, hsw, hw2]
              simp
            rw [hshape]
            exact consumedOk_prepend _ _ _
              (parseArrItems_consumed fuel _ _ _ _ h)
          · rw [if_neg hc2] at h
            cases h

theorem parseObjPairs_consumed :
    ∀ (fuel : Nat) (acc : List (String × Json)) (cs : List Char)
      (l : List (String × Json)) (rest : List Char),
      parseObjPairs fuel acc cs = .ok (l, rest) → ConsumedOk cs rest
  | 0, acc, cs, l, rest, h => by simp [parseObjPairs] at h
  | fuel + 1, acc, cs, l, rest, h => by
    rcases cs with _ | ⟨c, cs'⟩
    · simp [parseObjPairs] at h
    · simp only [parseObjPairs] at h
      by_cases hq : c = qt
      · rw [if_pos hq] at h
        cases hsb : parseStringBody (cs'.length + 1) [] cs' with
        | error e => rw [hsb] at h; cases h
        | ok pr =>
          obtain ⟨key, r1⟩ := pr
          rw [hsb] at h
          dsimp only at h
          cases hsw : skipWs r1 with
          | nil => rw [hsw] at h; cases h
          | cons d r2 =>
            rw [hsw] at h
            dsimp only at h
            by_cases hd : d = ':'
            · rw [if_pos hd] at h
              cases hpv : parseValue fuel (skipWs r2) with
              | error e => rw [hpv] at h; cases h
              | ok pr2 =>
                obtain ⟨v, r3⟩ := pr2
                rw [hpv] at h
                dsimp only at h
                cases hsw3 : skipWs r3 with
                | nil => rw [hsw3] at h; cases h
                | cons e2 r4 =>
                  rw [hsw3] at h
                  dsimp only at h
                  obtain ⟨preK, hpk⟩ := parseStringBody_consumed _ _ _ _ _ hsb
                  obtain ⟨w1, hw1, _⟩ := skipWs_decomp r1
                  obtain ⟨w2, hw2, _⟩ := skipWs_decomp r2
                  obtain ⟨preV, cV, hpv2, hgoodV⟩ :=
                    parseValue_consumed fuel (skipWs r2) v r3 hpv
                  obtain ⟨w3, hw3, _⟩ := skipWs_decomp r3
                  by_cases he2 : e2 = rbrace
                  · rw [if_pos he2] at h
                    simp only [Except.ok.injEq, Prod.mk.injEq] at h
                    refine ⟨c :: preK ++ qt :: w1 ++ ':' ::
                      (w2 ++ preV ++ cV :: w3), rbrace, ?_, by decide⟩
                    rw [← h.2]
                    conv_lhs => rw [hpk, hw1, hsw, hd, hw2, hpv2, hw3, hsw3, he2]
                    simp
                  · rw [if_neg he2] at h
                    by_cases hc2 : e2 = ','
                    · rw [if_pos hc2] at h
                      obtain ⟨w4, hw4, _⟩ := skipWs_decomp r4
                      have hshape : c :: cs' = (c :: preK ++ qt :: w1 ++ ':' ::
                          (w2 ++ preV ++ cV :: w3) ++ e2 :: w4) ++ skipWs r4 := by
                        conv_lhs => rw [hpk, hw1, hsw, hd, hw2, hpv2, hw3, hsw3, hw4]
                        simp [hd]
                      rw [hshape]
                      exact consumedOk_prepend _ _ _
                        (parseObjPairs_consumed fuel _ _ _ _ h)
                    · rw [if_neg hc2] at h
                      cases h
            · rw [if_neg hd] at h
              cases h
      · rw [if_neg hq] at h
        cases h

end

theorem fenceStartL_head (c : Char) (t : List Char) (h : c ≠ btick) :
    fenceStartL (c :: t) = false := by
  rcases t with _ | ⟨c2, t2⟩
  · rfl
  · rcases t2 with _ | ⟨c3, t3⟩
    · rfl
    · simp [fenceStartL, h]

/- On any text that `json.loads` accepts, the fence stripping of the handler
   reduces to a plain trim: the text is whitespace around a value whose two
   ends are non-whitespace, non-backtick characters, so neither fence branch
   fires. -/
theorem parseJson_strip (s : String) (v : Json) (h : parseJson s = .ok v) :
    stripFences s = .ok (pyStrip s) := by
  unfold parseJson at h
  cases hpv : parseValue (2 * s.data.length + 8) (skipWs s.data) with
  | error e => rw [hpv] at h; cases h
  | ok pr =>
    obtain ⟨v', rest⟩ := pr
    rw [hpv] at h
    dsimp only at h
    cases hsw : skipWs rest with
    | cons x xs => rw [hsw] at h; cases h
    | nil =>
      obtain ⟨c0, r0, hcs, hc0ws, hc0bt⟩ := parseValue_start _ _ _ hpv
      obtain ⟨pre, cE, hpre, hgood⟩ := parseValue_consumed _ _ _ _ hpv
      obtain ⟨hEws, hEbt⟩ := goodEnd_boundary cE hgood
      obtain ⟨w, hw, hwall⟩ := skipWs_decomp s.data
      have hrestall : ∀ c ∈ rest, pyWs c = true :=
        fun c hc => jsonWs_pyWs c (skipWs_nil_all rest hsw c hc)
      have hsdata : s.data = w ++ (pre ++ [cE]) ++ rest := by
        conv_lhs => rw [hw, hpre]
        simp
      have hheadfact : ∀ c t, pre ++ [cE] = c :: t → pyWs c = false ∧ c ≠ btick := by
        intro c t hct
        have hcc : c :: (t ++ rest) = c0 :: r0 := by
          rw [← List.cons_append, ← hct, List.append_assoc,
            List.singleton_append, ← hpre]
          exact hcs
        rw [List.cons.injEq] at hcc
        rw [hcc.1]
        exact ⟨hc0ws, hc0bt⟩
      have hcore : pyStripL s.data = pre ++ [cE] := by
        rw [hsdata]
        exact pyStripL_spec w (pre ++ [cE]) rest
          (fun c hc => jsonWs_pyWs c (hwall c hc)) hrestall
          (fun c t hct => (hheadfact c t hct).1)
          (fun c hc => by rw [List.getLast?_concat] at hc; cases hc; exact hEws)
          (by simp)
      have hfs : fenceStartL (pyStripL s.data) = false := by
        rw [hcore]
        cases hform : pre ++ [cE] with
        | nil => simp at hform
        | cons ch tt => exact fenceStartL_head ch tt (hheadfact ch tt hform).2
      have hfe : fenceEndL (pyStripL s.data) = false := by
        rw [hcore]
        unfold fenceEndL
        rw [List.reverse_append]
        exact fenceStartL_head cE pre.reverse hEbt
      unfold stripFences
      simp only [stripFencesL, hfs, Bool.false_eq_true, if_false, hfe]
      rw [pyStripL_idem]
      rfl

/-! ### C7 -/

/-- C7 counterexample: fence-stripping is not idempotent. On the reply whose
trimmed text is a fence line followed by a second fenced block, one
application strips only the first fence line and leaves a text that itself
starts with a fence, so a second application strips again and produces a
different result. -/
theorem c7_counterexample :
    stripFences "\x60\x60\x60\n\x60\x60\x60json\nA" = .ok "\x60\x60\x60json\nA" ∧
    stripFences "\x60\x60\x60json\nA" = .ok "A" ∧
    (("\x60\x60\x60json\nA" : String) == "A") = false :=
  ⟨rfl, rfl, by decide⟩

/-- C7 (amended): fence-stripping is idempotent on every input whose stripped
result does not itself begin or end with a three-backtick marker (on other
inputs a second application strips again or raises), and it is exact: for
any text that parses as JSON, wrapping it in a leading json fence line and a
trailing fence marker and then stripping yields exactly the same text as
stripping the unwrapped input — the trimmed original — hence the identical
parsed JSON value. -/
theorem c7_strip_idempotent_exact :
    (∀ s t : String, stripFences s = .ok t → fenceStartL t.data = false →
      fenceEndL t.data = false → stripFences t = .ok t) ∧
    (∀ (s : String) (v : Json), parseJson s = .ok v →
      stripFences (wrapFence s) = .ok (pyStrip s) ∧
      stripFences s = .ok (pyStrip s)) := by
  constructor
  · intro s t hst h1 h2
    have ht : pyStripL t.data = t.data := by
      unfold stripFences at hst
      cases hl : stripFencesL s.data with
      | error e => rw [hl] at hst; cases hst
      | ok cs =>
        rw [hl] at hst
        cases hst
        exact stripFencesL_output s.data cs hl
    exact stripFences_fixed t ht h1 h2
  · intro s v h
    exact ⟨stripFences_wrap s, parseJson_strip s v h⟩

theorem c7_witness :
    stripFences "ok" = .ok "ok" ∧
    stripFences (wrapFence "[1]") = .ok (pyStrip "[1]") ∧
    stripFences "[1]" = .ok (pyStrip "[1]") :=
  ⟨c7_strip_idempotent_exact.1 "ok" "ok" (by rfl) (by decide) (by decide),
   (c7_strip_idempotent_exact.2 "[1]" (.arr [.num "1"]) (by rfl)).1,
   (c7_strip_idempotent_exact.2 "[1]" (.arr [.num "1"]) (by rfl)).2⟩

end PolicyServer

